import Mathlib

/-!
Verification of the libzmf reader library against its specification.

The development shallowly embeds the C++ sources of libzmf:
 - the byte reader of libzmf_utils.cpp over a byte list,
 - the ZMF4 drawing parser of ZMF4Parser.cpp,
 - the collector lifecycle discipline of ZMFCollector.cpp,
 - the BMI bitmap decoder of BMIParser.cpp / BMIHeader.cpp,
 - the geometry of ZMFTypes.cpp over the real numbers.

Machine integers are modelled as Nat with explicit wrap-around (mod 2^32)
at the places where the C++ code performs unsigned arithmetic that can
wrap for in-range inputs; stream positions and lengths are plain Nat,
which agrees with the C++ uint32 arithmetic for every stream shorter
than 2^32 bytes.  IEEE-754 float fields are carried as their raw 32-bit
encodings: the parser never branches on a float value in a way that any
verified property depends on.  zlib inflation and PNG encoding are
external library primitives and enter the model as oracle parameters.
-/

namespace Libzmf

/-- Error conditions of the reader: end of stream, generic decode failure,
a failed seek, undefined behaviour (an unguarded boost::get on an empty
optional), and fuel exhaustion of the embedding's loop counters. -/
inductive ZErr where
  | eos
  | generic
  | seekFailed
  | ub
  | fuelOut
deriving DecidableEq

/-- Lifecycle events delivered to the drawing sink (painter); exactly the
calls made by ZMFCollector::startDocument .. ZMFCollector::endLayer. -/
inductive LEvent where
  | startDoc
  | endDoc
  | startPage
  | endPage
  | startLayer
  | endLayer
deriving DecidableEq, Fintype

/-- The marker 0xffffffff used by the ZMF4 format for a missing id. -/
def noId : Nat := 0xffffffff

/-- 32-bit truncation, for the spots where the C++ code computes in uint32. -/
def u32 (n : Nat) : Nat := n % 4294967296

/-- 32-bit unsigned subtraction with wrap-around (a assumed < 2^32). -/
def sub32 (a b : Nat) : Nat := (a + 4294967296 - b % 4294967296) % 4294967296

/-- CurveType of ZMFTypes.h. -/
inductive CurveType where
  | LINE
  | BEZIER_CURVE
deriving DecidableEq

/-- Point as read by the parser.  The C++ Point holds doubles; the parser
model stores the raw integer encodings read from the stream (signed
micrometers for readPoint, IEEE bits for readUnscaledPoint), which it
never does arithmetic on. -/
structure PointV where
  x : Int
  y : Int
deriving DecidableEq

/-- Curve of ZMFTypes.h. -/
structure Curve where
  points : List PointV
  sectionTypes : List CurveType
  closed : Bool
deriving DecidableEq

/-- Total number of points consumed by a section-type sequence:
a LINE consumes 1 point, a BEZIER_CURVE consumes 3. -/
def consumedPoints (ts : List CurveType) : Nat :=
  ts.foldl (fun acc t => match t with | .LINE => acc + 1 | .BEZIER_CURVE => acc + 3) 0

/-- The rectangle path built by ZMF4Parser::readRectangle from the four
bounding-box corner points. -/
def rectCurve (pts : List PointV) : Curve :=
  { points := pts, sectionTypes := List.replicate (pts.length - 1) CurveType.LINE, closed := true }

/-- Color of ZMFTypes.h. -/
structure ColorV where
  red : Nat
  green : Nat
  blue : Nat
deriving DecidableEq

structure GradientStopV where
  color : ColorV
  offsetBits : Nat
deriving DecidableEq

inductive GradientTypeV where
  | LINEAR
  | RADIAL
  | CONICAL
  | CROSS
  | RECTANGULAR
  | FLEXIBLE
deriving DecidableEq

/-- Gradient; center and angle are raw IEEE bits (0 when left default). -/
structure GradientV where
  gtype : GradientTypeV
  stops : List GradientStopV
  centerX : Nat
  centerY : Nat
  angle : Nat
deriving DecidableEq

structure ImageV where
  width : Nat
  height : Nat
  data : List Nat
deriving DecidableEq

def emptyImage : ImageV := { width := 0, height := 0, data := [] }

structure ImageFillV where
  image : ImageV
  tile : Bool
  tileWidth : Nat
  tileHeight : Nat
deriving DecidableEq

inductive FillV where
  | solid (c : ColorV)
  | gradient (g : GradientV)
  | image (f : ImageFillV)
deriving DecidableEq

structure TransparencyV where
  color : ColorV
deriving DecidableEq

inductive LineCapTypeV where
  | BUTT
  | FLAT
  | ROUND
  | POINTED
deriving DecidableEq

inductive LineJoinTypeV where
  | MITER
  | ROUND
  | BEVEL
deriving DecidableEq

structure ArrowV where
  lineEndX : Nat
  curves : List Curve
deriving DecidableEq

/-- Pen of ZMFTypes.h; width is the raw micrometer value, dashDistance the
integer computed by ZMF4Parser::readPen. -/
structure PenV where
  color : ColorV
  width : Nat
  lineCapType : LineCapTypeV
  lineJoinType : LineJoinTypeV
  dashPattern : List Nat
  dashDistance : Int
  startArrow : Option ArrowV
  endArrow : Option ArrowV
  isInvisible : Bool
deriving DecidableEq

/-- Shadow; float fields as raw bits, absent fields as none. -/
structure ShadowV where
  stype : Nat
  offset : PointV
  angleBits : Nat
  color : Option ColorV
  opacityBits : Option Nat
deriving DecidableEq

structure FontV where
  name : List Nat
  sizeBits : Nat
  isBold : Bool
  isItalic : Bool
  fill : Option FillV
  outline : Option PenV
deriving DecidableEq

inductive HorizontalAlignmentV where
  | LEFT
  | RIGHT
  | BLOCK
  | CENTER
  | FULL
deriving DecidableEq

structure ParagraphStyleV where
  alignment : HorizontalAlignmentV
  lineSpacingBits : Nat
  font : Option FontV
deriving DecidableEq

structure SpanV where
  length : Nat
  fontId : Nat
  text : List Nat
deriving DecidableEq

structure ParagraphV where
  styleId : Nat
  spans : List SpanV
deriving DecidableEq

structure TextV where
  paragraphs : List ParagraphV
deriving DecidableEq

structure StyleV where
  fill : Option FillV
  pen : Option PenV
  shadow : Option ShadowV
  transparency : Option TransparencyV
deriving DecidableEq

/-- Object type tags of ZMF4Parser.h. -/
inductive ObjectType where
  | UNKNOWN
  | FILL
  | TRANSPARENCY
  | PEN
  | SHADOW
  | ARROW
  | FONT
  | PARAGRAPH
  | TEXT
  | BITMAP
  | PAGE_START
  | GUIDELINES
  | PAGE_END
  | LAYER_START
  | LAYER_END
  | DOCUMENT_SETTINGS
  | COLOR_PALETTE
  | RECTANGLE
  | ELLIPSE
  | POLYGON
  | CURVE
  | IMAGE
  | TEXT_FRAME
  | TABLE
  | GROUP_START
  | GROUP_END
deriving DecidableEq

/-- ZMF4Parser::parseObjectType. -/
def parseObjectType (t : Nat) : ObjectType :=
  match t with
  | 0xa => .FILL
  | 0xb => .TRANSPARENCY
  | 0xc => .PEN
  | 0xd => .SHADOW
  | 0xf => .ARROW
  | 0x10 => .FONT
  | 0x11 => .PARAGRAPH
  | 0x12 => .TEXT
  | 0xe => .BITMAP
  | 0x21 => .PAGE_START
  | 0x22 => .GUIDELINES
  | 0x23 => .PAGE_END
  | 0x24 => .LAYER_START
  | 0x25 => .LAYER_END
  | 0x27 => .DOCUMENT_SETTINGS
  | 0x28 => .COLOR_PALETTE
  | 0x32 => .RECTANGLE
  | 0x33 => .ELLIPSE
  | 0x34 => .POLYGON
  | 0x36 => .CURVE
  | 0x37 => .IMAGE
  | 0x3a => .TEXT_FRAME
  | 0x3b => .TABLE
  | 0x41 => .GROUP_START
  | 0x42 => .GROUP_END
  | _ => .UNKNOWN

/-- ZMF4Parser::ObjectHeader.  refListStartOffset is stored already
adjusted by the object start when positive, as readObjectHeader does. -/
structure ObjectHeader where
  otype : ObjectType
  size : Nat
  next : Nat
  id : Option Nat
  refObjCount : Nat
  refListStartOffset : Nat
deriving DecidableEq

def defaultObjectHeader : ObjectHeader :=
  { otype := .UNKNOWN, size := 0, next := 0, id := none, refObjCount := 0, refListStartOffset := 0 }

structure ObjectRef where
  id : Nat
  tag : Nat
deriving DecidableEq

/-- Page settings (raw micrometer values and background color). -/
structure PageSettingsV where
  pageWidth : Nat
  pageHeight : Nat
  leftOffset : Nat
  topOffset : Nat
  color : ColorV
deriving DecidableEq

/-- Association-table insert, modelling std::map operator[] assignment. -/
def tinsert (k : Nat) (v : α) : List (Nat × α) → List (Nat × α)
  | [] => [(k, v)]
  | (k', v') :: rest => if k = k' then (k, v) :: rest else (k', v') :: tinsert k v rest

/-- Association-table lookup, modelling std::map find/at. -/
def tfind? (k : Nat) : List (Nat × α) → Option α
  | [] => none
  | (k', v') :: rest => if k = k' then some v' else tfind? k rest

/-- getByRefId of ZMF4Parser.cpp: a NO_ID ref or an undefined id yields none. -/
def getByRefId (id : Nat) (table : List (Nat × α)) : Option α :=
  if id = noId then none else tfind? id table

/-- The input byte stream: its length and the byte at each position
(positions at or past the size are never read by the bounds-checked
primitives). -/
structure ByteData where
  size : Nat
  byte : Nat -> Nat

/-- The reader state: the immutable input bytes, the read position, and the
ZMF4Parser member fields that the byte-level control flow can touch
(m_inputLength, m_pageNumber, m_currentObjectHeader, the id tables, the
page settings). -/
structure RState where
  data : ByteData
  pos : Nat
  inputLength : Nat
  pageNumber : Nat
  curHeader : ObjectHeader
  pageSettings : PageSettingsV
  pens : List (Nat × PenV)
  fills : List (Nat × FillV)
  transparencies : List (Nat × TransparencyV)
  shadows : List (Nat × ShadowV)
  arrows : List (Nat × ArrowV)
  images : List (Nat × ImageV)
  fonts : List (Nat × FontV)
  paragraphStyles : List (Nat × ParagraphStyleV)
  texts : List (Nat × TextV)

/-- Result of a reader computation: value or error, with the state at the
point the result was produced. -/
inductive RRes (α : Type) where
  | rok (a : α) (s : RState)
  | rerr (e : ZErr) (s : RState)

/-- The reader monad: explicit state passing with errors. -/
def RM (α : Type) : Type := RState → RRes α

instance : Monad RM where
  pure a := fun s => .rok a s
  bind m f := fun s =>
    match m s with
    | .rok a s' => f a s'
    | .rerr e s' => .rerr e s'

def rthrow (e : ZErr) : RM α := fun s => .rerr e s

def getRS : RM RState := fun s => .rok s s

def modifyRS (f : RState → RState) : RM Unit := fun s => .rok () (f s)

def byteAt (data : ByteData) (i : Nat) : Nat := data.byte i

/-- Little-endian 16-bit value at a position. -/
def u16At (data : ByteData) (p : Nat) : Nat :=
  byteAt data p + 256 * byteAt data (p + 1)

/-- Little-endian 32-bit value at a position. -/
def u32At (data : ByteData) (p : Nat) : Nat :=
  byteAt data p + 256 * byteAt data (p + 1) + 65536 * byteAt data (p + 2) +
    16777216 * byteAt data (p + 3)

/-- The n bytes starting at position p. -/
def bytesFrom (data : ByteData) (p : Nat) : Nat -> List Nat
  | 0 => []
  | n + 1 => byteAt data p :: bytesFrom data (p + 1) n

/-- libzmf readU8: checkStream (end of stream raises EOS), then one byte. -/
def readU8 : RM Nat := fun s =>
  if s.data.size ≤ s.pos then .rerr .eos s
  else .rok (byteAt s.data s.pos) { s with pos := s.pos + 1 }

/-- libzmf readU16 (little-endian); a short read raises EOS. -/
def readU16 : RM Nat := fun s =>
  if s.data.size ≤ s.pos then .rerr .eos s
  else if s.pos + 2 ≤ s.data.size then .rok (u16At s.data s.pos) { s with pos := s.pos + 2 }
  else .rerr .eos { s with pos := s.data.size }

/-- libzmf readU32 (little-endian); a short read raises EOS. -/
def readU32 : RM Nat := fun s =>
  if s.data.size ≤ s.pos then .rerr .eos s
  else if s.pos + 4 ≤ s.data.size then .rok (u32At s.data s.pos) { s with pos := s.pos + 4 }
  else .rerr .eos { s with pos := s.data.size }

/-- libzmf readS32: the u32 reinterpreted as two's-complement. -/
def readS32 : RM Int := do
  let v ← readU32
  pure (if v < 2147483648 then (v : Int) else (v : Int) - 4294967296)

/-- libzmf readFloat: the model carries the raw IEEE bits. -/
def readF32 : RM Nat := readU32

/-- libzmf readNBytes; a short read raises EOS. -/
def readNBytesM (n : Nat) : RM (List Nat) := fun s =>
  if s.data.size ≤ s.pos then .rerr .eos s
  else if s.pos + n ≤ s.data.size then
    .rok (bytesFrom s.data s.pos n) { s with pos := s.pos + n }
  else .rerr .eos { s with pos := s.data.size }

/-- libzmf skip: checkStream, then a relative seek; seeking past the end
fails (the librevenge stream clamps to the end and reports failure). -/
def skipB (n : Nat) : RM Unit := fun s =>
  if s.data.size ≤ s.pos then .rerr .eos s
  else if s.pos + n ≤ s.data.size then .rok () { s with pos := s.pos + n }
  else .rerr .seekFailed { s with pos := s.data.size }

/-- libzmf seek (absolute); seeking past the end fails. -/
def seekTo (p : Nat) : RM Unit := fun s =>
  if p ≤ s.data.size then .rok () { s with pos := p }
  else .rerr .seekFailed { s with pos := s.data.size }

def tellM : RM Nat := fun s => .rok s.pos s

def misEnd : RM Bool := fun s => .rok (decide (s.data.size ≤ s.pos)) s

/-- libzmf getLength as used by ZMF4Parser::parse: the list-backed stream
supports the end seek, so the length is determined directly; the entry
position is restored. -/
def getLengthM : RM Nat := fun s =>
  if s.data.size ≤ s.pos then .rerr .eos s
  else if s.data.size < s.pos then .rerr .seekFailed s
  else .rok (s.data.size - s.pos) s

/-- ZMF4Parser::readObjectHeader.  The four validation conditions are
checked, in the source's order, before the trailing id read; a violation
raises the generic decode failure.  A positive ref-list-start offset is
turned into an absolute offset. -/
def readObjectHeader : RM ObjectHeader := do
  let startOffset ← tellM
  let size ← readU32
  let t ← readU8
  skipB 7
  let refObjCount ← readU32
  let refListStartOffset ← readU32
  let s ← getRS
  if size = 0 ∨ size > s.inputLength - startOffset ∨ refListStartOffset ≥ size ∨
     refObjCount > (size - refListStartOffset) / 8 then
    rthrow .generic
  else do
    skipB 4
    let idv ← readU32
    pure { otype := parseObjectType t
           size := size
           next := startOffset + size
           id := if idv = noId then none else some idv
           refObjCount := refObjCount
           refListStartOffset :=
             if refListStartOffset > 0 then refListStartOffset + startOffset
             else refListStartOffset }

def setCurHeader (h : ObjectHeader) : RM Unit :=
  modifyRS fun s => { s with curHeader := h }

/-- readObjectHeader followed by the assignment to m_currentObjectHeader,
as in the layer loop of ZMF4Parser::readLayer. -/
def readObjectHeaderSet : RM ObjectHeader := do
  let h ← readObjectHeader
  setCurHeader h
  pure h

/-- Read k little-endian u32 values in order.  (This and the other
bounded loops recurse through Nat.rec directly, which keeps evaluation
of the embedding by the definitional reduction engine linear.) -/
def readU32Vec (k : Nat) : RM (List Nat) :=
  Nat.rec (pure [])
    (fun _ ih => do
      let v ← readU32
      let rest ← ih
      pure (v :: rest))
    k

/-- ZMF4Parser::readObjectRefs.  The count is clamped by the expression
long(nextObjectOffset) - tell() / 8 of the source (the division binds to
tell() only); the list is then read at nextObjectOffset - 8 * count, ids
first, tags second, and entries with id 0xffffffff are dropped.  The
header's refListStartOffset is not consulted. -/
def readObjectRefs : RM (List ObjectRef) := do
  let s ← getRS
  let hdr := s.curHeader
  let maxRef0 : Int := (hdr.next : Int) - (s.pos / 8 : Nat)
  let maxRef : Int := if maxRef0 < 0 then 0 else maxRef0
  let k : Nat := if (hdr.refObjCount : Int) > maxRef then maxRef.toNat else hdr.refObjCount
  if k > 0 then do
    seekTo (hdr.next - 8 * k)
    let ids ← readU32Vec k
    let tags ← readU32Vec k
    pure (((ids.zip tags).map fun p => ObjectRef.mk p.1 p.2).filter fun r => r.id ≠ noId)
  else
    pure []

/-- ZMF4Parser::readStyle: the reference list resolved through the tables,
tag 1 fill, 2 pen, 3 shadow, 4 transparency. -/
def readStyle : RM StyleV := do
  let refs ← readObjectRefs
  let s ← getRS
  pure (refs.foldl
    (fun st r =>
      match r.tag with
      | 1 => { st with fill := getByRefId r.id s.fills }
      | 2 => { st with pen := getByRefId r.id s.pens }
      | 3 => { st with shadow := getByRefId r.id s.shadows }
      | 4 => { st with transparency := getByRefId r.id s.transparencies }
      | _ => st)
    { fill := none, pen := none, shadow := none, transparency := none })

/-- ZMF4Parser::readPoint (scaled micrometer point; raw values kept). -/
def readPointM : RM PointV := do
  let x ← readS32
  let y ← readS32
  pure { x := x, y := y }

/-- ZMF4Parser::readUnscaledPoint (float point; raw bits kept). -/
def readUnscaledPointM : RM PointV := do
  let x ← readF32
  let y ← readF32
  pure { x := (x : Int), y := (y : Int) }

/-- ZMF4Parser::readBoundingBox: 8 skipped bytes then the four corner
points (the derived geometry is not needed at parser level). -/
def readBoundingBoxM : RM (List PointV) := do
  skipB 8
  let p0 ← readPointM
  let p1 ← readPointM
  let p2 ← readPointM
  let p3 ← readPointM
  pure [p0, p1, p2, p3]

def readColorM : RM ColorV := do
  let r ← readU8
  let g ← readU8
  let b ← readU8
  pure { red := r, green := g, blue := b }

/-- ZMF4Parser::readCurveSectionTypes: section types are read until the
0x64 end marker; 2 is a Bezier (with 8 extra bytes), anything else a
line.  There is no bound against the point count. -/
def readCurveSectionTypes (fuel : Nat) : List CurveType → RM (List CurveType) :=
  Nat.rec (fun _ => rthrow .fuelOut)
    (fun _ ih acc => do
      let t ← readU32
      if t = 0x64 then
        pure acc
      else if t = 2 then do
        skipB 8
        ih (acc ++ [CurveType.BEZIER_CURVE])
      else
        ih (acc ++ [CurveType.LINE]))
    fuel

/-- The first loop of ZMF4Parser::readCurveComponents: per component 8
skipped bytes, the point count (validated) and the closed flag; none
models the early return on an invalid point count. -/
def readCompMeta (k : Nat) : RM (Option (List (Nat × Bool))) :=
  Nat.rec (pure (some []))
    (fun _ ih => do
      skipB 8
      let pc ← readU32
      if pc = 0 ∨ pc > 10000 then
        pure none
      else do
        let closed ← readU32
        let rest ← ih
        match rest with
        | none => pure none
        | some l => pure (some ((pc, closed ≠ 0) :: l)))
    k

def readPointsVec (rp : RM PointV) (k : Nat) : RM (List PointV) :=
  Nat.rec (pure [])
    (fun _ ih => do
      let p ← rp
      let rest ← ih
      pure (p :: rest))
    k

def readAllPoints (rp : RM PointV) (meta : List (Nat × Bool)) : RM (List (List PointV)) :=
  List.rec (pure [])
    (fun m _ ih => do
      let pts ← readPointsVec rp m.1
      let more ← ih
      pure (pts :: more))
    meta

def readAllSectionTypes (fuel : Nat) (k : Nat) : RM (List (List CurveType)) :=
  Nat.rec (pure [])
    (fun _ ih => do
      let ts ← readCurveSectionTypes fuel []
      let more ← ih
      pure (ts :: more))
    k

/-- ZMF4Parser::readCurveComponents: component count (1..10000), the
per-component meta loop, then all points, then all section-type streams. -/
def readCurveComponents (fuel : Nat) (rp : RM PointV) : RM (List Curve) := do
  let count ← readU32
  if count = 0 ∨ count > 10000 then
    pure []
  else do
    let meta? ← readCompMeta count
    match meta? with
    | none => pure []
    | some meta => do
      let ptss ← readAllPoints rp meta
      let tss ← readAllSectionTypes fuel meta.length
      pure ((meta.zip (ptss.zip tss)).map fun m =>
        { points := m.2.1, sectionTypes := m.2.2, closed := m.1.2 })

def gradientTypeOf (t : Nat) : GradientTypeV :=
  match t with
  | 3 => .RADIAL
  | 4 => .CONICAL
  | 5 => .CROSS
  | 6 => .RECTANGULAR
  | 7 => .FLEXIBLE
  | _ => .LINEAR

def readStops (k : Nat) : RM (List GradientStopV) :=
  Nat.rec (pure [])
    (fun _ ih => do
      skipB 4
      let c ← readColorM
      skipB 5
      let off ← readF32
      let rest ← ih
      pure ({ color := c, offsetBits := off } :: rest))
    k

/-- ZMF4Parser::readGradient.  The stop count is validated against the
remaining object size (with the uint32 wrap of stopCount * 16); on
violation the gradient is returned with only its type set. -/
def readGradient (t : Nat) : RM GradientV := do
  let gt := gradientTypeOf t
  skipB 4
  let stopCount ← readU32
  let s ← getRS
  let a := s.pos + 20 + u32 (stopCount * 16)
  if a > s.curHeader.next ∨ a < stopCount then
    pure { gtype := gt, stops := [], centerX := 0, centerY := 0, angle := 0 }
  else do
    skipB 4
    let cx ← readF32
    let cy ← readF32
    let ang ← readF32
    skipB 4
    let stops ← readStops stopCount
    pure { gtype := gt, stops := stops, centerX := cx, centerY := cy, angle := ang }

/-- ZMF4Parser::readPreviewBitmap: 2 skipped bytes, a u32 size, then
size - 6 bytes skipped (uint32 wrap-around when size < 6). -/
def readPreviewBitmap : RM Unit := do
  skipB 2
  let size ← readU32
  skipB (sub32 size 6)

/-- ZMF4Parser::readDocumentSettings. -/
def readDocumentSettings : RM Unit := do
  let hdr ← readObjectHeader
  if hdr.otype ≠ ObjectType.DOCUMENT_SETTINGS then rthrow .generic
  else do
    skipB 32
    let c ← readColorM
    skipB 5
    let pw ← readU32
    let ph ← readU32
    skipB 68
    let lo ← readU32
    let tOff ← readU32
    let ps : PageSettingsV :=
      { pageWidth := pw, pageHeight := ph, leftOffset := lo, topOffset := tOff, color := c }
    modifyRS fun s => { s with pageSettings := ps }
    seekTo hdr.next

/-- ZMF4Parser::readFill.  A missing id drops the object with a warning
before any read; otherwise subtype 1 solid, 2..7 gradient, 8 image fill. -/
def readFill : RM Unit := do
  let s ← getRS
  match s.curHeader.id with
  | none => pure ()
  | some fid => do
    skipB 8
    let t ← readU32
    if t = 1 then do
      skipB 8
      let c ← readColorM
      modifyRS fun s => { s with fills := tinsert fid (FillV.solid c) s.fills }
    else if 2 ≤ t ∧ t ≤ 7 then do
      let g ← readGradient t
      modifyRS fun s => { s with fills := tinsert fid (FillV.gradient g) s.fills }
    else if t = 8 then do
      skipB 4
      let tile ← readU32
      let tw ← readU32
      let th ← readU32
      let refs ← readObjectRefs
      let s' ← getRS
      let img := refs.foldl
        (fun acc r => match r.tag with
          | 0 => getByRefId r.id s'.images
          | _ => acc)
        (none : Option ImageV)
      match img with
      | none => pure ()
      | some im =>
        let fv : FillV :=
          FillV.image { image := im, tile := tile ≠ 0, tileWidth := tw, tileHeight := th }
        modifyRS fun s => { s with fills := tinsert fid fv s.fills }
    else
      pure ()

/-- ZMF4Parser::readTransparency. -/
def readTransparency : RM Unit := do
  let s ← getRS
  match s.curHeader.id with
  | none => pure ()
  | some tid => do
    skipB 8
    let t ← readU32
    if t = 1 then do
      skipB 8
      let c ← readColorM
      modifyRS fun s => { s with transparencies := tinsert tid { color := c } s.transparencies }
    else
      pure ()

/-- One step of the dash-bit walk of ZMF4Parser::readPen: a polarity
change appends the finished run length and restarts the counter,
otherwise the current run grows. -/
def dashStep (bit : Nat → Bool) (st : Nat × Bool × List Nat) (i : Nat) : Nat × Bool × List Nat :=
  if bit i ≠ st.2.1 then (1, bit i, st.2.2 ++ [st.1]) else (st.1 + 1, bit i, st.2.2)

/-- The dash-pattern decoding of ZMF4Parser::readPen.  The six dash bytes
form a 48-bit little-endian bitset; if any bit is unset, bits 1..23 are
walked counting run lengths, each completed run appended on a polarity
change; dashDistance is dashLength / 1024 minus the pattern sum, floored
at 1.  When all 48 bits are set the pen keeps its defaults (empty
pattern, distance 0). -/
def decodeDash (bytes : List Nat) (dashLength : Nat) : List Nat × Int :=
  let bit : Nat → Bool := fun i => (bytes.getD (i / 8) 0) >>> (i % 8) &&& 1 = 1
  if (List.range 48).all bit then
    ([], 0)
  else
    let walk := (List.range' 1 23).foldl (dashStep bit) (1, true, ([] : List Nat))
    let pattern := walk.2.2
    let d : Int := ((dashLength / 1024 : Nat) : Int) - (pattern.sum : Int)
    (pattern, if d < 1 then 1 else d)

/-- ZMF4Parser::readPen. -/
def readPen : RM Unit := do
  let s ← getRS
  match s.curHeader.id with
  | none => pure ()
  | some pid => do
    skipB 12
    let lineJoin ← readU32
    let joinT := if lineJoin = 1 then LineJoinTypeV.ROUND
                 else if lineJoin = 2 then LineJoinTypeV.BEVEL
                 else LineJoinTypeV.MITER
    let lineCap ← readU32
    let capT := if lineCap = 1 then LineCapTypeV.FLAT
                else if lineCap = 2 then LineCapTypeV.ROUND
                else if lineCap = 3 then LineCapTypeV.POINTED
                else LineCapTypeV.BUTT
    skipB 4
    let w ← readU32
    skipB 4
    let c ← readColorM
    skipB 17
    let dashBytes ← readNBytesM 6
    let dashLength ← readU16
    let dash := decodeDash dashBytes dashLength
    let refs ← readObjectRefs
    let s' ← getRS
    let arrowPair := refs.foldl
      (fun acc r =>
        match r.tag with
        | 0 => (getByRefId r.id s'.arrows, acc.2)
        | 1 => (acc.1, getByRefId r.id s'.arrows)
        | _ => acc)
      ((none : Option ArrowV), (none : Option ArrowV))
    let pen : PenV :=
      { color := c, width := w, lineCapType := capT, lineJoinType := joinT,
        dashPattern := dash.1, dashDistance := dash.2,
        startArrow := arrowPair.1, endArrow := arrowPair.2, isInvisible := false }
    modifyRS fun s => { s with pens := tinsert pid pen s.pens }

/-- ZMF4Parser::readShadow. -/
def readShadow : RM Unit := do
  let s ← getRS
  match s.curHeader.id with
  | none => pure ()
  | some sid => do
    skipB 8
    let t ← readU32
    let off ← readPointM
    let ang ← readF32
    let sh ←
      if t = 1 then do
        skipB 4
        let c ← readColorM
        pure { stype := t, offset := off, angleBits := ang, color := some c,
               opacityBits := none : ShadowV }
      else if t = 3 then do
        skipB 4
        let c ← readColorM
        skipB 5
        let op ← readF32
        pure { stype := t, offset := off, angleBits := ang, color := some c,
               opacityBits := some op : ShadowV }
      else if t = 2 ∨ t = 4 then do
        let op ← readF32
        pure { stype := t, offset := off, angleBits := ang, color := none,
               opacityBits := some op : ShadowV }
      else
        pure { stype := t, offset := off, angleBits := ang, color := none,
               opacityBits := none : ShadowV }
    modifyRS fun s => { s with shadows := tinsert sid sh s.shadows }

/-- ZMF4Parser::readArrow. -/
def readArrow (fuel : Nat) : RM Unit := do
  let s ← getRS
  match s.curHeader.id with
  | none => pure ()
  | some aid => do
    skipB 4
    let lex ← readF32
    skipB 12
    let curves ← readCurveComponents fuel readUnscaledPointM
    modifyRS fun s => { s with arrows := tinsert aid { lineEndX := lex, curves := curves } s.arrows }

/-- ZMF4Parser::readFont. -/
def readFont : RM Unit := do
  let s ← getRS
  match s.curHeader.id with
  | none => pure ()
  | some fid => do
    skipB 4
    let flags ← readU8
    skipB 3
    let sz ← readF32
    skipB 4
    let nameBytes ← readNBytesM 32
    let style ← readStyle
    let fnt : FontV :=
      { name := nameBytes.take 31, sizeBits := sz,
        isBold := flags &&& 1 ≠ 0, isItalic := flags &&& 2 ≠ 0,
        fill := style.fill, outline := style.pen }
    modifyRS fun s => { s with fonts := tinsert fid fnt s.fonts }

/-- ZMF4Parser::readParagraphStyle. -/
def readParagraphStyle : RM Unit := do
  let s ← getRS
  match s.curHeader.id with
  | none => pure ()
  | some pid => do
    skipB 4
    let align ← readU8
    let al := if align = 1 then HorizontalAlignmentV.RIGHT
              else if align = 2 then HorizontalAlignmentV.BLOCK
              else if align = 3 then HorizontalAlignmentV.CENTER
              else if align = 4 then HorizontalAlignmentV.FULL
              else HorizontalAlignmentV.LEFT
    skipB 3
    let ls ← readF32
    let refs ← readObjectRefs
    let s' ← getRS
    let font := refs.foldl
      (fun acc r => match r.tag with
        | 1 => match getByRefId r.id s'.fonts with
               | some f => some f
               | none => acc
        | _ => acc)
      (none : Option FontV)
    let pstyle : ParagraphStyleV := { alignment := al, lineSpacingBits := ls, font := font }
    modifyRS fun s => { s with paragraphStyles := tinsert pid pstyle s.paragraphStyles }

/-- The first text loop: per paragraph the span count (early return when
above 1000) and the paragraph-style id. -/
def readParMeta (k : Nat) : RM (Option (List (Nat × Nat))) :=
  Nat.rec (pure (some []))
    (fun _ ih => do
      let spanCount ← readU32
      if spanCount > 1000 then
        pure none
      else do
        let styleId ← readU32
        skipB 4
        let rest ← ih
        match rest with
        | none => pure none
        | some l => pure (some ((spanCount, styleId) :: l)))
    k

/-- The second text loop: per span the length (early return when above the
object size) and the font id. -/
def readSpanMeta (objSize : Nat) (k : Nat) : RM (Option (List (Nat × Nat))) :=
  Nat.rec (pure (some []))
    (fun _ ih => do
      let len ← readU32
      if len > objSize then
        pure none
      else do
        skipB 4
        let fontId ← readU32
        let rest ← ih
        match rest with
        | none => pure none
        | some l => pure (some ((len, fontId) :: l)))
    k

def readSpanMetas (objSize : Nat) (meta : List (Nat × Nat)) :
    RM (Option (List (List (Nat × Nat)))) :=
  List.rec (pure (some []))
    (fun p _ ih => do
      let m? ← readSpanMeta objSize p.1
      match m? with
      | none => pure none
      | some m => do
        let more? ← ih
        match more? with
        | none => pure none
        | some more => pure (some (m :: more)))
    meta

def readSpanTexts (meta : List (Nat × Nat)) : RM (List SpanV) :=
  List.rec (pure [])
    (fun p _ ih => do
      let bytes ← readNBytesM (u32 (p.1 * 2))
      let more ← ih
      pure ({ length := p.1, fontId := p.2, text := bytes } :: more))
    meta

def readAllSpanTexts (metas : List (List (Nat × Nat))) : RM (List (List SpanV)) :=
  List.rec (pure [])
    (fun m _ ih => do
      let sp ← readSpanTexts m
      let more ← ih
      pure (sp :: more))
    metas

/-- ZMF4Parser::readText.  Unlike every other resource reader, the missing
id is not checked; at the end the source executes
m_texts[get(m_currentObjectHeader.id)] = text, where get on an empty
boost::optional is undefined behaviour, modelled as the ub error. -/
def readText : RM Unit := do
  skipB 12
  let parCount ← readU32
  if parCount = 0 ∨ parCount > 1000 then
    pure ()
  else do
    skipB 4
    let meta? ← readParMeta parCount
    match meta? with
    | none => pure ()
    | some meta => do
      let spans? ← readSpanMetas (← getRS).curHeader.size meta
      match spans? with
      | none => pure ()
      | some spanMetas => do
        let texts ← readAllSpanTexts spanMetas
        let s ← getRS
        match s.curHeader.id with
        | none => rthrow .ub
        | some tid =>
          let text : TextV :=
            { paragraphs := (meta.zip texts).map fun m =>
                { styleId := m.1.2, spans := m.2 } }
          modifyRS fun s => { s with texts := tinsert tid text s.texts }

/-- ZMF4Parser::readTextFrame. -/
def readTextFrame : RM Unit := do
  let _bbox ← readBoundingBoxM
  let _flags ← readU8
  let _refs ← readObjectRefs
  pure ()

/-- ZMF4Parser::readCurve (the collectPath call is a painter call with no
lifecycle effect). -/
def readCurve (fuel : Nat) : RM Unit := do
  skipB 52
  let _curves ← readCurveComponents fuel readPointM
  let _style ← readStyle
  pure ()

/-- ZMF4Parser::readRectangle. -/
def readRectangle : RM Unit := do
  let bbox ← readBoundingBoxM
  let _curve := rectCurve bbox
  let _style ← readStyle
  pure ()

/-- ZMF4Parser::readEllipse.  The choice between collectEllipse and
collectArc depends on float comparisons and affects only the painter
call, which carries no lifecycle event. -/
def readEllipse : RM Unit := do
  let _bbox ← readBoundingBoxM
  let _beginAngle ← readF32
  let _endAngle ← readF32
  let _closedByte ← readU8
  let _style ← readStyle
  pure ()

/-- ZMF4Parser::readPolygon. -/
def readPolygon (fuel : Nat) : RM Unit := do
  let _bbox ← readBoundingBoxM
  let peaksCount ← readU32
  if peaksCount = 0 ∨ peaksCount > 99 then
    pure ()
  else do
    let pointsCount ← readU32
    let s ← getRS
    let endOffset := if s.curHeader.refListStartOffset = 0 then s.curHeader.next
                     else s.curHeader.refListStartOffset
    if pointsCount = 0 ∨ s.pos + 8 ≥ endOffset ∨ pointsCount > (endOffset - s.pos - 8) / 12 then
      pure ()
    else do
      skipB 8
      let _pts ← readPointsVec readUnscaledPointM pointsCount
      let _ts ← readCurveSectionTypes fuel []
      let _style ← readStyle
      pure ()

/-- ZMF4Parser::readImage (object type 0x37, image placement). -/
def readImagePlacement : RM Unit := do
  let _bbox ← readBoundingBoxM
  let refs ← readObjectRefs
  let s ← getRS
  let img := refs.foldl
    (fun acc r => match r.tag with
      | 5 => getByRefId r.id s.images
      | _ => acc)
    (none : Option ImageV)
  match img with
  | none => pure ()
  | some _ => do
    let _style ← readStyle
    pure ()

def repeatRM (m : RM Unit) (k : Nat) : RM Unit :=
  Nat.rec (pure ())
    (fun _ ih => do
      m
      ih)
    k

/-- One cell record of ZMF4Parser::readTable. -/
def readTableCell : RM Unit := do
  skipB 4
  let _fillId ← readU32
  let _textId ← readU32
  let _rightPenId ← readU32
  let _bottomPenId ← readU32
  pure ()

/-- One row record of ZMF4Parser::readTable. -/
def readTableRow : RM Unit := do
  skipB 4
  let _leftPenId ← readU32
  let _relHeight ← readF32
  pure ()

/-- ZMF4Parser::readTable (the collected table goes to the painter only). -/
def readTable : RM Unit := do
  let _bbox ← readBoundingBoxM
  skipB 8
  let rowCount ← readU32
  let colCount ← readU32
  if rowCount < 1 ∨ rowCount > 100 ∨ colCount < 1 ∨ colCount > 100 then
    pure ()
  else do
    skipB 8
    repeatRM readTableCell (rowCount * colCount)
    repeatRM readTableRow rowCount
    repeatRM readTableRow colCount
    let _style ← readStyle
    pure ()

/-! ### The BMI bitmap decoder (BMIHeader.cpp, BMIParser.cpp) -/

inductive BMIStreamType where
  | UNKNOWN
  | BITMAP
  | END_OF_FILE
deriving DecidableEq

structure BMIOffsetV where
  otype : BMIStreamType
  start : Nat
  endO : Nat
deriving DecidableEq

structure BMIHdrV where
  signature : List Nat
  startOffset : Nat
  width : Nat
  height : Nat
  isPaletteMode : Bool
  colorDepth : Nat
  size : Nat
  offsets : List BMIOffsetV
deriving DecidableEq

/-- The bytes of the string ZonerBMIa. -/
def bmiSignature : List Nat := [0x5a, 0x6f, 0x6e, 0x65, 0x72, 0x42, 0x4d, 0x49, 0x61]

def bmiIsSupported (h : BMIHdrV) : Bool := h.signature = bmiSignature

/-- The offset-reading loop of BMIHeader::readOffsets; an END_OF_FILE
record stores its start as the header size. -/
def bmiReadOffsetRecords (k : Nat) : RM (List BMIOffsetV × Nat) :=
  Nat.rec (pure ([], 0))
    (fun _ ih => do
      let t ← readU16
      let start ← readU32
      let otype := if t = 0x1 then BMIStreamType.BITMAP
                   else if t = 0xff then BMIStreamType.END_OF_FILE
                   else BMIStreamType.UNKNOWN
      let (rest, msz) ← ih
      let msz' := if rest.any (fun o => o.otype = BMIStreamType.END_OF_FILE) then msz
                  else if t = 0xff then start else msz
      pure ({ otype := otype, start := start, endO := 0 } :: rest, msz'))
    k

/-- Stable insertion sort by start offset (std::sort with the start
comparator; a stable order is one refinement of the unspecified one). -/
def insertByStart (o : BMIOffsetV) : List BMIOffsetV → List BMIOffsetV
  | [] => [o]
  | x :: xs => if x.start ≤ o.start then x :: insertByStart o xs else o :: x :: xs

def sortByStart : List BMIOffsetV → List BMIOffsetV
  | [] => []
  | x :: xs => insertByStart x (sortByStart xs)

/-- std::unique with BMIOffset equality (same type and start). -/
def dedupOffsets : List BMIOffsetV → List BMIOffsetV
  | [] => []
  | [x] => [x]
  | x :: y :: rest =>
    if x.otype = y.otype ∧ x.start = y.start then dedupOffsets (x :: rest)
    else x :: dedupOffsets (y :: rest)

/-- Each entry's end is the following entry's start; the last entry keeps
its default end 0. -/
def fillEnds : List BMIOffsetV → List BMIOffsetV
  | [] => []
  | [x] => [x]
  | x :: y :: rest => { x with endO := y.start } :: fillEnds (y :: rest)

/-- BMIHeader::load.  Returns the load result together with the header
fields read so far (the size stays 0 when the offsets are not reached). -/
def bmiHeaderLoad : RM (Bool × BMIHdrV) := do
  let startOffset ← tellM
  let sig ← readNBytesM 9
  let width ← readU16
  let height ← readU16
  let pm ← readU16
  let colorDepth ← readU16
  let partial0 : BMIHdrV :=
    { signature := sig, startOffset := startOffset, width := width, height := height,
      isPaletteMode := pm ≠ 0, colorDepth := colorDepth, size := 0, offsets := [] }
  if ¬(colorDepth = 1 ∨ colorDepth = 4 ∨ colorDepth = 8 ∨ colorDepth = 24) then
    pure (false, partial0)
  else do
    skipB 2
    let offsetCount ← readU16
    if offsetCount = 0 ∨ offsetCount > 6 then
      pure (false, partial0)
    else do
      if pm ≠ 0 then skipB (4 * 2 ^ colorDepth) else pure ()
      let (offs, msz) ← bmiReadOffsetRecords offsetCount
      let offs' := fillEnds (dedupOffsets (sortByStart offs))
      pure (true, { partial0 with size := msz, offsets := offs' })

/-- BMIParser::ColorBitmapHeader. -/
structure CBHdr where
  width : Nat
  height : Nat
  colorDepth : Nat
  startOffset : Nat
  endOffset : Nat
deriving DecidableEq

/-- BMIParser::ColorBitmapHeader::parse. -/
def cbhParse (hdr : BMIHdrV) (off : BMIOffsetV) : RM CBHdr := do
  seekTo (hdr.startOffset + off.start)
  let w ← readU16
  let h ← readU16
  let cd ← readU16
  let colorDepth := if cd ≤ 1 then 1 else if cd ≤ 4 then 4 else if cd ≤ 8 then 8 else 24
  let t ← tellM
  pure { width := w, height := h, colorDepth := colorDepth,
         startOffset := t + 10, endOffset := hdr.startOffset + off.endO }

/-- The offsets loop of BMIParser::readImage: the first BITMAP offset
supplies the color bitmap header, the second the transparency header. -/
def bmiCollectHeaders (hdr : BMIHdrV) (offs : List BMIOffsetV) :
    Option CBHdr → Option CBHdr → RM (Option CBHdr × Option CBHdr) :=
  List.rec (fun bh th => pure (bh, th))
    (fun off _ ih bh th =>
      if off.otype = BMIStreamType.BITMAP then
        match bh with
        | none => do
          let h ← cbhParse hdr off
          ih (some h) th
        | some _ =>
          match th with
          | none => do
            let h ← cbhParse hdr off
            ih bh (some h)
          | some _ => ih bh th
      else
        ih bh th)
    offs

/-- reconcileValue of BMIHeader.cpp: majority reconciliation of three
values; none when all three pairwise differ. -/
def reconcileValue (v1 v2 v3 : Nat) : Option (Nat × Nat × Nat) :=
  if v1 = v2 then some (v1, v2, if v2 ≠ v3 then v1 else v3)
  else if v1 = v3 then some (v1, v1, v3)
  else if v2 = v3 then some (v2, v2, v3)
  else none

/-- BMIParser::reconcileDimensions: widths reconciled first, then heights
(short-circuit as in the source). -/
def reconcileDimensions (hdr : BMIHdrV) (bh th : CBHdr) : Option (BMIHdrV × CBHdr × CBHdr) :=
  match reconcileValue hdr.width bh.width th.width with
  | none => none
  | some (w1, w2, w3) =>
    match reconcileValue hdr.height bh.height th.height with
    | none => none
    | some (h1, h2, h3) =>
      some ({ hdr with width := w1, height := h1 },
            { bh with width := w2, height := h2 },
            { th with width := w3, height := h3 })

structure ColorBitmapV where
  width : Nat
  height : Nat
  data : List ColorV
deriving DecidableEq

def emptyColorBitmap : ColorBitmapV := { width := 0, height := 0, data := [] }

/-- External primitives entering the model as oracles: zlib inflation and
PNG encoding. -/
structure ZOracles where
  inflate : List Nat → Option (List Nat)
  mkPng : ColorBitmapV → ColorBitmapV → Option (List Nat)

/-- The uncompress wrapper of BMIParser.cpp: failure, or zero total
output, reports failure. -/
def uncompressOr (oc : ZOracles) (block : List Nat) : Option (List Nat) :=
  match oc.inflate block with
  | none => none
  | some out => if out.length = 0 then none else some out

/-- BMIParser::readData: while the position is before the end offset read
one compressed block (u16 size, one skipped byte, the payload) and
inflate it; on failure the collected data is cleared and the loop ends. -/
def bmiReadData (oc : ZOracles) (endOffset : Nat) (fuel : Nat) : List Nat → RM (List Nat) :=
  Nat.rec (fun _ => rthrow .fuelOut)
    (fun _ ih acc => do
      let p ← tellM
      if p < endOffset then do
        let blockSize ← readU16
        skipB 1
        let block ← readNBytesM blockSize
        match uncompressOr oc block with
        | none => pure []
        | some out => ih (acc ++ out)
      else
        pure acc)
    fuel

/-- BMIParser::readColorPalette: 2^depth BGR entries, one reserved byte
each. -/
def readColorPaletteLoop (k : Nat) : RM (List ColorV) :=
  Nat.rec (pure [])
    (fun _ ih => do
      let b ← readU8
      let g ← readU8
      let r ← readU8
      skipB 1
      let rest ← ih
      pure ({ red := r, green := g, blue := b } :: rest))
    k

def readColorPalette (colorDepth : Nat) : RM (List ColorV) :=
  readColorPaletteLoop (2 ^ colorDepth)

/-- The shift of the pixel-assembly loop: 8 - min(depth, 8). -/
def bmShift (depth : Nat) : Nat := 8 - min depth 8

/-- The mask of the pixel-assembly loop: (0xff >> shift) << shift. -/
def bmMask (depth : Nat) : Nat := (0xff >>> bmShift depth) <<< bmShift depth

/-- One palette index extracted from a data byte: (b & mask) >> shift. -/
def extractIndex (depth b : Nat) : Nat := (b &&& bmMask depth) >>> bmShift depth

/-- The inner index loop for depths below 24: up to 8 / depth indexes per
data byte, the byte shifted left by depth after each one (with uint8
truncation), stopping at the row width. -/
def assembleIdxByte (depth : Nat) (palette : List ColorV) (b : Nat) (width : Nat) :
    Nat → Nat → List ColorV × Nat
  | 0, col => ([], col)
  | j + 1, col =>
    let idx := extractIndex depth b
    let px := palette.getD idx { red := 0, green := 0, blue := 0 }
    let col' := col + 1
    if col' = width then ([px], col')
    else
      let (rest, colEnd) := assembleIdxByte depth palette ((b <<< depth) % 256) width j col'
      (px :: rest, colEnd)

/-- One row of pixels at depths 1/4/8, consuming bytes from position i. -/
def assembleRowIdx (depth : Nat) (palette : List ColorV) (data : List Nat) (width : Nat) :
    Nat → Nat → Nat → List ColorV × Nat
  | 0, i, _ => ([], i)
  | fuel + 1, i, col =>
    if width ≤ col then ([], i)
    else
      let b := data.getD i 0
      let (pxs, col') := assembleIdxByte depth palette b width (8 / depth) col
      let (rest, iEnd) := assembleRowIdx depth palette data width fuel (i + 1) col'
      (pxs ++ rest, iEnd)

/-- One row of pixels at depth 24 (B, G, R per pixel). -/
def assembleRow24 (data : List Nat) : Nat → Nat → List ColorV × Nat
  | 0, i => ([], i)
  | col + 1, i =>
    let px : ColorV := { red := data.getD (i + 2) 0, green := data.getD (i + 1) 0,
                         blue := data.getD i 0 }
    let (rest, iEnd) := assembleRow24 data col (i + 3)
    (px :: rest, iEnd)

/-- The row loop of BMIParser::readColorBitmap. -/
def assembleRows (depth : Nat) (palette : List ColorV) (data : List Nat)
    (width padding : Nat) : Nat → Nat → List ColorV
  | 0, _ => []
  | r + 1, i =>
    let (pxs, iEnd) :=
      if depth = 24 then assembleRow24 data width i
      else assembleRowIdx depth palette data width width i 0
    pxs ++ assembleRows depth palette data width padding r (iEnd + padding)

/-- BMIParser::readColorBitmap. -/
def readColorBitmap (oc : ZOracles) (fuel : Nat) (hdr : CBHdr) : RM ColorBitmapV := do
  seekTo hdr.startOffset
  let palette ← if hdr.colorDepth < 24 then readColorPalette hdr.colorDepth else pure []
  let data ← bmiReadData oc hdr.endOffset fuel []
  let lineBitCount := hdr.width * hdr.colorDepth
  let lineWidth0 := lineBitCount / 8 + (if lineBitCount % 8 ≠ 0 then 1 else 0)
  let padding := (4 - lineWidth0 % 4) % 4
  let lineWidth := lineWidth0 + padding
  if data.length < hdr.height * lineWidth then
    pure emptyColorBitmap
  else
    pure { width := hdr.width, height := hdr.height,
           data := assembleRows hdr.colorDepth palette data hdr.width padding hdr.height 0 }

/-- The tail of BMIParser::readImage after the bitmap headers have been
collected: reconciliation, bitmap reading, and PNG encoding. -/
def bmiAfterHeaders (oc : ZOracles) (fuel : Nat) (hdr : BMIHdrV)
    (bh? th? : Option CBHdr) : RM (ImageV × Nat) :=
  match bh? with
  | none => pure (emptyImage, hdr.size)
  | some bh =>
    match th? with
    | some th =>
      match reconcileDimensions hdr bh th with
      | none => pure (emptyImage, hdr.size)
      | some (hdr', bh', th') => do
        let bitmap ← readColorBitmap oc fuel bh'
        let tbitmap ← readColorBitmap oc fuel th'
        if bitmap.width = 0 ∨ bitmap.height = 0 then
          pure (emptyImage, hdr'.size)
        else
          match oc.mkPng bitmap tbitmap with
          | some png =>
            pure ({ width := bitmap.width, height := bitmap.height, data := png }, hdr'.size)
          | none => pure (emptyImage, hdr'.size)
    | none => do
      let bitmap ← readColorBitmap oc fuel bh
      if bitmap.width = 0 ∨ bitmap.height = 0 then
        pure (emptyImage, hdr.size)
      else
        match oc.mkPng bitmap emptyColorBitmap with
        | some png =>
          pure ({ width := bitmap.width, height := bitmap.height, data := png }, hdr.size)
        | none => pure (emptyImage, hdr.size)

/-- BMIParser::readImage.  Returns the image together with the header size
recorded by the load (consumed by ZMF4Parser::readBitmap for the final
seek). -/
def bmiReadImage (oc : ZOracles) (fuel : Nat) : RM (ImageV × Nat) := do
  let (ok1, hdr) ← bmiHeaderLoad
  if ¬ok1 ∨ ¬bmiIsSupported hdr then
    pure (emptyImage, hdr.size)
  else do
    let (bh?, th?) ← bmiCollectHeaders hdr hdr.offsets none none
    bmiAfterHeaders oc fuel hdr bh? th?

/-- ZMF4Parser::readBitmap. -/
def readBitmap (oc : ZOracles) (fuel : Nat) : RM Unit := do
  let s ← getRS
  match s.curHeader.id with
  | none => pure ()
  | some bid => do
    skipB 4
    let something ← readU32
    seekTo s.curHeader.next
    if something ≠ 0 then do
      let (img, hdrSize) ← bmiReadImage oc fuel
      if img.data.isEmpty then pure ()
      else modifyRS fun s' => { s' with images := tinsert bid img s'.images }
      seekTo (s.curHeader.next + hdrSize)
    else
      pure ()

/-! ### Collector lifecycle (ZMFCollector.cpp) and the page/layer loops -/

/-- The collector's lifecycle flags and the lifecycle calls it has made to
the painter, in order. -/
structure CollState where
  doc : Bool
  page : Bool
  layer : Bool
  events : List LEvent
deriving DecidableEq

def initColl : CollState := { doc := false, page := false, layer := false, events := [] }

/-- Full parser state: reader state plus collector state. -/
structure PState where
  rs : RState
  coll : CollState

inductive MRes (α : Type) where
  | mok (a : α) (s : PState)
  | merr (e : ZErr) (s : PState)

def MM (α : Type) : Type := PState → MRes α

instance : Monad MM where
  pure a := fun s => .mok a s
  bind m f := fun s =>
    match m s with
    | .mok a s' => f a s'
    | .merr e s' => .merr e s'

def mthrow (e : ZErr) : MM α := fun s => .merr e s

/-- Lift a reader computation; the collector state is untouched. -/
def liftR (m : RM α) : MM α := fun s =>
  match m s.rs with
  | .rok a rs' => .mok a { s with rs := rs' }
  | .rerr e rs' => .merr e { s with rs := rs' }

/-- ZMFCollector::startDocument: a no-op when the document is started. -/
def cStartDocument : MM Unit := fun s =>
  if s.coll.doc then .mok () s
  else .mok () { s with coll :=
    { s.coll with doc := true, events := s.coll.events ++ [LEvent.startDoc] } }

/-- ZMFCollector::endPage applied to a collector state. -/
def collEndPage (c : CollState) : CollState :=
  if ¬c.page then c
  else { c with page := false, events := c.events ++ [LEvent.endPage] }

/-- ZMFCollector::endLayer applied to a collector state. -/
def collEndLayer (c : CollState) : CollState :=
  if ¬c.layer then c
  else { c with layer := false, events := c.events ++ [LEvent.endLayer] }

/-- ZMFCollector::endDocument applied to a collector state: a running page
is ended first; a running layer is not ended. -/
def collEndDocument (c : CollState) : CollState :=
  if ¬c.doc then c
  else
    let c1 := collEndPage c
    { c1 with doc := false, events := c1.events ++ [LEvent.endDoc] }

/-- ZMFCollector::startPage: a no-op when a page is started; implicitly
ends a running layer. -/
def cStartPage : MM Unit := fun s =>
  if s.coll.page then .mok () s
  else
    let c1 := collEndLayer s.coll
    .mok () { s with coll := { c1 with page := true, events := c1.events ++ [LEvent.startPage] } }

def cEndPage : MM Unit := fun s => .mok () { s with coll := collEndPage s.coll }

/-- ZMFCollector::startLayer: a no-op when a layer is started. -/
def cStartLayer : MM Unit := fun s =>
  if s.coll.layer then .mok () s
  else .mok () { s with coll :=
    { s.coll with layer := true, events := s.coll.events ++ [LEvent.startLayer] } }

def cEndLayer : MM Unit := fun s => .mok () { s with coll := collEndLayer s.coll }

def cEndDocument : MM Unit := fun s => .mok () { s with coll := collEndDocument s.coll }

/-- The ZMFCollector destructor: endDocument when still open. -/
def finalizeColl (c : CollState) : CollState :=
  if c.doc then collEndDocument c else c

/-- The object dispatch of the layer loop of ZMF4Parser::readLayer (all
cases other than LAYER_END), followed by the unconditional seek to the
next object offset for every type but BITMAP. -/
def handleObject (oc : ZOracles) (fuel : Nat) : RM Unit := do
  let s ← getRS
  match s.curHeader.otype with
  | .FILL => readFill
  | .TRANSPARENCY => readTransparency
  | .PEN => readPen
  | .SHADOW => readShadow
  | .ARROW => readArrow fuel
  | .FONT => readFont
  | .PARAGRAPH => readParagraphStyle
  | .TEXT => readText
  | .BITMAP => readBitmap oc fuel
  | .RECTANGLE => readRectangle
  | .ELLIPSE => readEllipse
  | .POLYGON => readPolygon fuel
  | .CURVE => readCurve fuel
  | .IMAGE => readImagePlacement
  | .TEXT_FRAME => readTextFrame
  | .TABLE => readTable
  | _ => pure ()
  let s' ← getRS
  if s'.curHeader.otype ≠ ObjectType.BITMAP then seekTo s'.curHeader.next else pure ()

/-- The layer loop of ZMF4Parser::readLayer: read object headers into
m_currentObjectHeader and dispatch until LAYER_END, which seeks past the
end object and ends the layer.  The group start and end cases call only
openGroup/closeGroup on the painter, which are not lifecycle events. -/
def layerLoop (oc : ZOracles) (fuel : Nat) : MM Unit :=
  Nat.rec (mthrow .fuelOut)
    (fun n ih => do
      let hdr ← liftR readObjectHeaderSet
      if hdr.otype = ObjectType.LAYER_END then do
        liftR (seekTo hdr.next)
        cEndLayer
      else do
        liftR (handleObject oc n)
        ih)
    fuel

/-- ZMF4Parser::readLayer. -/
def readLayer (oc : ZOracles) (fuel : Nat) (hdr : ObjectHeader) : MM Unit := do
  if hdr.otype ≠ ObjectType.LAYER_START then mthrow .generic
  else do
    cStartLayer
    liftR (seekTo hdr.next)
    layerLoop oc fuel

/-- The color-palette skip loop at the top of ZMF4Parser::readPage. -/
def paletteSkipLoop (fuel : Nat) : RM ObjectHeader :=
  Nat.rec (rthrow .fuelOut)
    (fun _ ih => do
      let hdr ← readObjectHeader
      if hdr.otype = ObjectType.COLOR_PALETTE then do
        seekTo hdr.next
        ih
      else
        pure hdr)
    fuel

/-- The master-page skip loop of ZMF4Parser::readPage: advance past whole
objects until the next page start. -/
def masterSkipLoop (fuel : Nat) : ObjectHeader → RM ObjectHeader :=
  Nat.rec (fun _ => rthrow .fuelOut)
    (fun _ ih cur => do
      seekTo cur.next
      let hdr ← readObjectHeader
      if hdr.otype = ObjectType.PAGE_START then pure hdr
      else ih hdr)
    fuel

/-- The per-page object loop of ZMF4Parser::readPage. -/
def pageLoop (oc : ZOracles) (fuel : Nat) : MM Unit :=
  Nat.rec (mthrow .fuelOut)
    (fun n ih => do
      let hdr ← liftR readObjectHeader
      if hdr.otype = ObjectType.GUIDELINES then do
        liftR (seekTo hdr.next)
        ih
      else if hdr.otype = ObjectType.PAGE_END then do
        cEndPage
        let e ← liftR misEnd
        if e then pure () else liftR (seekTo hdr.next)
      else if hdr.otype = ObjectType.LAYER_START then do
        readLayer oc n hdr
        ih
      else mthrow .generic)
    fuel

def incPageNumber : RM Nat := fun s =>
  .rok (s.pageNumber + 1) { s with pageNumber := s.pageNumber + 1 }

/-- The tail of ZMF4Parser::readPage after the page-start header is
settled: start the page, seek past the start object, run the page loop. -/
def readPageTail (oc : ZOracles) (fuel : Nat) (hdr : ObjectHeader) : MM Unit := do
  cStartPage
  liftR (seekTo hdr.next)
  pageLoop oc fuel

/-- ZMF4Parser::readPage. -/
def readPage (oc : ZOracles) (fuel : Nat) : MM Unit := do
  let hdr ← liftR (paletteSkipLoop fuel)
  if hdr.otype ≠ ObjectType.PAGE_START then mthrow .generic
  else do
    let pn ← liftR incPageNumber
    if pn = 1 then do
      let hdr' ← liftR (masterSkipLoop fuel hdr)
      readPageTail oc fuel hdr'
    else
      readPageTail oc fuel hdr

/-- The page loop of ZMF4Parser::parse. -/
def pagesLoop (oc : ZOracles) (fuel : Nat) : MM Unit :=
  Nat.rec (mthrow .fuelOut)
    (fun n ih => do
      let e ← liftR misEnd
      if e then pure ()
      else do
        readPage oc n
        ih)
    fuel

/-- ZMF4Header fields. -/
structure ZHdrV where
  signature : Nat
  objectCount : Nat
  startContentOffset : Nat
  startBitmapOffset : Nat
deriving DecidableEq

/-- ZMF4Header::load: signature u32 at byte 8, then the three u32 fields
at byte 28. -/
def zmf4HeaderLoad : RM (Bool × ZHdrV) := do
  seekTo 8
  let sig ← readU32
  if sig ≠ 0x12345678 then
    pure (false, { signature := sig, objectCount := 0, startContentOffset := 0,
                   startBitmapOffset := 0 })
  else do
    seekTo 28
    let oc ← readU32
    let sc ← readU32
    let sb ← readU32
    pure (true, { signature := sig, objectCount := oc, startContentOffset := sc,
                  startBitmapOffset := sb })

def setInputLength (n : Nat) : RM Unit := modifyRS fun s => { s with inputLength := n }

/-- The tail of ZMF4Parser::parse after the preview handling: document
settings, the page loop, endDocument, result true. -/
def zmf4ParseTail (oc : ZOracles) (fuel : Nat) : MM Bool := do
  liftR readDocumentSettings
  pagesLoop oc fuel
  cEndDocument
  pure true

/-- ZMF4Parser::parse. -/
def zmf4Parse (oc : ZOracles) (fuel : Nat) : MM Bool := do
  let len ← liftR getLengthM
  liftR (setInputLength (u32 len))
  let (ok1, zh) ← liftR zmf4HeaderLoad
  if ¬ok1 ∨ zh.signature ≠ 0x12345678 then pure false
  else do
    cStartDocument
    if zh.startBitmapOffset > 0 then do
      liftR (seekTo zh.startBitmapOffset)
      liftR readPreviewBitmap
      zmf4ParseTail oc fuel
    else do
      liftR (seekTo zh.startContentOffset)
      zmf4ParseTail oc fuel

/-- The initial reader state of a fresh ZMF4Parser: the pre-seeded id
tables (fill 0x3 solid black, pen 0x1 the invisible white border pen). -/
def initRState (data : ByteData) : RState :=
  { data := data, pos := 0, inputLength := 0, pageNumber := 0,
    curHeader := defaultObjectHeader,
    pageSettings := { pageWidth := 0, pageHeight := 0, leftOffset := 0, topOffset := 0,
                      color := { red := 0, green := 0, blue := 0 } },
    pens := [(1, { color := { red := 255, green := 255, blue := 255 }, width := 0,
                   lineCapType := .BUTT, lineJoinType := .MITER,
                   dashPattern := [], dashDistance := 0,
                   startArrow := none, endArrow := none, isInvisible := true })],
    fills := [(3, FillV.solid { red := 0, green := 0, blue := 0 })],
    transparencies := [], shadows := [], arrows := [], images := [], fonts := [],
    paragraphStyles := [], texts := [] }

/-- A bare reader state at position 0 for format detection. -/
def detectRState (data : ByteData) : RState := initRState data

/-- ZBRHeader::load with its internal catch, and isSupported. -/
def zbrDetect : RM Bool := do
  let s0 ← getRS
  match (do
      let sig ← readU16
      let ver ← readU16
      skipB 100
      pure (sig, ver) : RM (Nat × Nat)) s0 with
  | .rok (sig, ver) s1 => fun _ => .rok (decide (sig = 0x29a ∧ ver < 5)) s1
  | .rerr _ s1 => fun _ => .rok false s1

/-- The detected document type of ZMFDocument::detect for a flat stream:
the drawing header, then the bitmap header, then the legacy header, each
attempt starting with a seek to 0 and catching every exception. -/
inductive DetType where
  | draw
  | bitmap
  | zebra
  | unknown
deriving DecidableEq

def detectType (data : ByteData) : DetType :=
  match zmf4HeaderLoad (detectRState data) with
  | .rok (true, _) _ => .draw
  | _ =>
    match bmiHeaderLoad (detectRState data) with
    | .rok (ok1, hdr) _ =>
      if ok1 ∧ bmiIsSupported hdr then .bitmap
      else
        match zbrDetect (detectRState data) with
        | .rok true _ => .zebra
        | _ => .unknown
    | .rerr _ _ =>
      match zbrDetect (detectRState data) with
      | .rok true _ => .zebra
      | _ => .unknown

/-- BMIParser::parse: decode the image; on success the collector receives
the full lifecycle sequence around a single collectImage. -/
def bmiParseDoc (oc : ZOracles) (fuel : Nat) (data : ByteData) : Bool × List LEvent :=
  match bmiReadImage oc fuel (detectRState data) with
  | .rok (img, _) _ =>
    if img.data.isEmpty then (false, [])
    else (true, [LEvent.startDoc, LEvent.startPage, LEvent.startLayer,
                 LEvent.endLayer, LEvent.endPage, LEvent.endDoc])
  | .rerr _ _ => (false, [])

/-- ZMFDocument::parse for a flat input stream: detection, then dispatch
to the matching parser; every exception is caught and yields false.  The
returned event list is the painter's lifecycle trace, including the
collector-destructor finalization that runs when the ZMF4 parser is
destroyed. -/
def zmfDocumentParse (oc : ZOracles) (fuel : Nat) (data : ByteData) : Bool × List LEvent :=
  match detectType data with
  | .draw =>
    let s0 : PState := { rs := initRState data, coll := initColl }
    match zmf4Parse oc fuel s0 with
    | .mok b s => (b, (finalizeColl s.coll).events)
    | .merr _ s => (false, (finalizeColl s.coll).events)
  | .bitmap => bmiParseDoc oc fuel data
  | .zebra => (true, [LEvent.startDoc, LEvent.endDoc])
  | .unknown => (false, [])

/-! ### The lifecycle-event automaton -/

/-- The automaton state mirroring the collector's three lifecycle flags. -/
structure AState where
  doc : Bool
  page : Bool
  layer : Bool
deriving DecidableEq, Fintype

def startA : AState := { doc := false, page := false, layer := false }

/-- One legal lifecycle transition: documents wrap pages, pages wrap
layers, nothing interleaves. -/
def stepE (st : AState) (e : LEvent) : Option AState :=
  match e, st with
  | .startDoc, ⟨false, false, false⟩ => some ⟨true, false, false⟩
  | .startPage, ⟨true, false, false⟩ => some ⟨true, true, false⟩
  | .startLayer, ⟨true, true, false⟩ => some ⟨true, true, true⟩
  | .endLayer, ⟨true, true, true⟩ => some ⟨true, true, false⟩
  | .endPage, ⟨true, true, false⟩ => some ⟨true, false, false⟩
  | .endDoc, ⟨true, false, false⟩ => some ⟨false, false, false⟩
  | _, _ => none

def traceRun (st : AState) (evs : List LEvent) : Option AState :=
  evs.foldl (fun o e => o.bind fun st' => stepE st' e) (some st)

/-- A complete well-formed single-document trace: the automaton accepts it
back to the all-closed state and there is exactly one startDocument and
one endDocument. -/
def WellFormedTrace (tr : List LEvent) : Prop :=
  traceRun startA tr = some startA ∧
    tr.count LEvent.startDoc = 1 ∧ tr.count LEvent.endDoc = 1

/-- The page-level automaton: layer events are ignored; documents and
pages must balance and never interleave. -/
def pageStep (st : Bool × Bool) (e : LEvent) : Option (Bool × Bool) :=
  match e with
  | .startDoc => if st = (false, false) then some (true, false) else none
  | .endDoc => if st = (true, false) then some (false, false) else none
  | .startPage => if st = (true, false) then some (true, true) else none
  | .endPage => if st = (true, true) then some (true, false) else none
  | .startLayer => some st
  | .endLayer => some st

def pageRun (st : Bool × Bool) (evs : List LEvent) : Option (Bool × Bool) :=
  evs.foldl (fun o e => o.bind fun st' => pageStep st' e) (some st)

/-- Every document and page event balanced (at most one document), with
layer events left unconstrained. -/
def PagesBalanced (tr : List LEvent) : Prop :=
  pageRun (false, false) tr = some (false, false) ∧ tr.count LEvent.startDoc ≤ 1

/-- The collector-state invariant: the lifecycle trace emitted so far
drives the automaton exactly onto the collector's three flags. -/
def CollInv (c : CollState) : Prop :=
  traceRun startA c.events = some { doc := c.doc, page := c.page, layer := c.layer }

/-! ### The point consumption of the collector's path builder -/

/-- The point indexes accessed by the path-building loop of
ZMFCollector.cpp (createPath): i starts at 1; a LINE section is skipped
when i >= n and otherwise reads index i; a BEZIER_CURVE section is
skipped when i + 2 >= n and otherwise reads i, i+1, i+2. -/
def cpAccesses : List CurveType → Nat → Nat → List Nat
  | [], _, _ => []
  | CurveType.LINE :: rest, i, n =>
    if n ≤ i then cpAccesses rest i n
    else i :: cpAccesses rest (i + 1) n
  | CurveType.BEZIER_CURVE :: rest, i, n =>
    if n ≤ i + 2 then cpAccesses rest i n
    else i :: (i + 1) :: (i + 2) :: cpAccesses rest (i + 3) n

/-! ### The reference list as the spec describes it -/

/-- Modelled from the spec: the reference list as §4.4 words it for a
positive ref-list-start offset, read at that absolute position as k ids
followed by k tags, entries with id 0xffffffff dropped.  Used only to
compare the source's readObjectRefs against the spec's description. -/
def specRefListAt (d : ByteData) (p k : Nat) : List ObjectRef :=
  (((List.range k).map fun i =>
    ObjectRef.mk (u32At d (p + 4 * i)) (u32At d (p + 4 * k + 4 * i))).filter
      fun r => r.id ≠ noId)

/-! ### The abstract-stream getLength of libzmf_utils.cpp -/

/-- The byte-stream operations getLength is written against: end test,
position query, one-byte read (none on failure), absolute seek and end
seek (none on failure). -/
structure SOps (σ : Type) where
  isEnd : σ → Bool
  tell : σ → Nat
  read1 : σ → Option (Nat × σ)
  seekSet : σ → Nat → Option σ
  seekEnd : σ → Option σ

/-- The fallback of getLength when the end seek is unsupported: read
bytes until the end of the stream, failing if a read fails. -/
def readToEnd (ops : SOps σ) (fuel : Nat) : σ → Option σ :=
  Nat.rec (fun _ => none)
    (fun _ ih s =>
      if ops.isEnd s then some s
      else
        match ops.read1 s with
        | some p => ih p.2
        | none => none)
    fuel

/-- The stream state at the end of the input: the end seek when the
stream supports it, the exhaustive read otherwise. -/
def endState (ops : SOps σ) (fuel : Nat) (s : σ) : Option σ :=
  match ops.seekEnd s with
  | some s1 => some s1
  | none => readToEnd ops fuel s

/-- getLength of libzmf_utils.cpp: checkStream, record the entry
position, determine the end position by end seek or by exhaustive
reading, fail if the end lies before the entry or a seek fails, seek
back, return the difference. -/
def getLengthA (ops : SOps σ) (fuel : Nat) (s : σ) : Option (Nat × σ) :=
  if ops.isEnd s then none
  else
    let b := ops.tell s
    match endState ops fuel s with
    | none => none
    | some s2 =>
      if ops.tell s2 < b then none
      else
        match ops.seekSet s2 b with
        | none => none
        | some s3 => some (ops.tell s2 - b, s3)

/-! ### Concrete byte streams and states used by the closed theorems -/

/-- A byte function from a list of (position, value) entries; unlisted
positions hold zero. -/
def sparseBytes (entries : List (Nat × Nat)) : Nat → Nat := fun i =>
  match entries.find? (fun e => e.1 = i) with
  | some e => e.2
  | none => 0

/-- A well-formed minimal drawing file: signature, document settings at
offset 40, the empty master page, one real page with one empty layer,
and the page end flush with the end of the stream. -/
def zmfAcceptedData : ByteData :=
  { size := 332
    byte := sparseBytes [(8, 0x78), (9, 0x56), (10, 0x34), (11, 0x12),
      (32, 40), (40, 152), (44, 0x27), (192, 28), (196, 0x21),
      (220, 28), (224, 0x21), (248, 28), (252, 0x24), (276, 28), (280, 0x25),
      (304, 28), (308, 0x23)] }

/-- The same file with the layer's first object replaced by a header
whose size field is zero: the validation of readObjectHeader fires
inside an open layer. -/
def zmfBadObjectData : ByteData :=
  { size := 304
    byte := sparseBytes [(8, 0x78), (9, 0x56), (10, 0x34), (11, 0x12),
      (32, 40), (40, 152), (44, 0x27), (192, 28), (196, 0x21),
      (220, 28), (224, 0x21), (248, 28), (252, 0x24), (276, 0), (280, 0x32)] }

/-- Oracles that refuse every inflate and PNG request; the concrete
streams contain no bitmap data. -/
def noOracles : ZOracles := { inflate := fun _ => none, mkPng := fun _ _ => none }

/-- A curve object body: one component of two points whose section-type
stream holds three LINE records before the end marker. -/
def curve3LineData : ByteData :=
  { size := 52
    byte := sparseBytes [(0, 1), (12, 2), (36, 1), (40, 1), (44, 1), (48, 0x64)] }

/-- A stream for readObjectRefs whose recorded ref-list-start offset (20)
points at an id/tag pair different from the pair stored at
nextObjectOffset - 8 (position 32). -/
def refListData : ByteData :=
  { size := 40
    byte := sparseBytes [(20, 99), (24, 5), (32, 7), (36, 3)] }

/-- A current-object header recording one reference and a positive
ref-list-start offset of 20 over refListData. -/
def refListHeader : ObjectHeader :=
  { otype := .CURVE, size := 40, next := 40, id := none, refObjCount := 1,
    refListStartOffset := 20 }

/-- A reader state over the given data with the given position, input
length and current object header. -/
def mkRS (d : ByteData) (p il : Nat) (hdr : ObjectHeader) : RState :=
  { initRState d with pos := p, inputLength := il, curHeader := hdr }

/-- The current-object header of a text object that carries no id. -/
def textNoIdHeader : ObjectHeader :=
  { otype := .TEXT, size := 60, next := 60, id := none, refObjCount := 0,
    refListStartOffset := 0 }

/-- The body of a text object: one paragraph with zero spans. -/
def textNoIdData : ByteData :=
  { size := 40, byte := sparseBytes [(12, 1)] }

/-- The current-object header of a fill object that carries no id. -/
def fillNoIdHeader : ObjectHeader :=
  { otype := .FILL, size := 60, next := 60, id := none, refObjCount := 0,
    refListStartOffset := 0 }

/-- The list-backed stream instance of the abstract stream operations:
position plus length, reads yield zero bytes. -/
def natSOps : SOps (Nat × Nat) :=
  { isEnd := fun s => s.2 ≤ s.1
    tell := fun s => s.1
    read1 := fun s => if s.1 < s.2 then some (0, (s.1 + 1, s.2)) else none
    seekSet := fun s q => if q ≤ s.2 then some (q, s.2) else none
    seekEnd := fun s => some (s.2, s.2) }

/-! ### Specification-proof scaffolding -/

/-- The document/page event counts of a collector state. -/
def dCounts (c : CollState) : Nat × Nat :=
  (c.events.count LEvent.startDoc, c.events.count LEvent.endDoc)

/-- A Hoare-style triple over the collector component: from precondition
P on the collector state, running m lands in Q (on the result) when it
succeeds and in E when it fails. -/
def MT (P : CollState → Prop) (m : MM α) (Q : α → CollState → Prop)
    (E : CollState → Prop) : Prop :=
  ∀ s, P s.coll →
    match m s with
    | .mok a s' => Q a s'.coll
    | .merr _ s' => E s'.coll

/-- The invariant carried between collector operations: the automaton
reads the trace onto the given flags and the document event counts are
fixed. -/
def InvAt (d p l : Bool) (k : Nat × Nat) (c : CollState) : Prop :=
  CollInv c ∧ c.doc = d ∧ c.page = p ∧ c.layer = l ∧ dCounts c = k

/-- The error-side invariant: the automaton still accepts the trace (onto
whatever flags are current) and the counts are fixed. -/
def EInv (k : Nat × Nat) (c : CollState) : Prop :=
  CollInv c ∧ dCounts c = k

end Libzmf

/-! ### The bounding-box geometry of ZMFTypes.cpp over the reals -/

namespace LibzmfGeom

open scoped Classical

noncomputable section

structure RPoint where
  x : ℝ
  y : ℝ

/-- Point::rotate of ZMFTypes.cpp. -/
def rotateP (p : RPoint) (rotation : ℝ) (center : RPoint) : RPoint :=
  { x := (p.x - center.x) * Real.cos rotation - (p.y - center.y) * Real.sin rotation + center.x
    y := (p.y - center.y) * Real.cos rotation + (p.x - center.x) * Real.sin rotation + center.y }

/-- Point::distance (the Euclidean hypot). -/
def distP (p q : RPoint) : ℝ := Real.sqrt ((q.x - p.x) ^ 2 + (q.y - p.y) ^ 2)

/-- C atan2(y, x), with atan2(0, 0) = 0, as the complex argument. -/
def atan2R (y x : ℝ) : ℝ := Complex.arg ⟨x, y⟩

/-- The ZMF_ALMOST_ZERO macro: magnitude at most 1e-6. -/
def almostZeroR (v : ℝ) : Prop := |v| ≤ 1 / 1000000

/-- The derived fields of a BoundingBox. -/
structure BBoxR where
  points : List RPoint
  width : ℝ
  height : ℝ
  center : RPoint
  rotation : ℝ
  p1Quadrant : Nat
  p2Quadrant : Nat
  mirrorHorizontal : Bool
  mirrorVertical : Bool

def origin : RPoint := { x := 0, y := 0 }

/-- BoundingBox::quadrant. -/
def quadrantR (c p : RPoint) : Nat :=
  if c.x < p.x then (if p.y < c.y then 1 else 4)
  else (if p.y < c.y then 2 else 3)

/-- The body of the BoundingBox constructor for exactly four points. -/
def computeBBoxR (pts : List RPoint) : BBoxR :=
  let p0 := pts.getD 0 origin
  let p1 := pts.getD 1 origin
  let p2 := pts.getD 2 origin
  let p3 := pts.getD 3 origin
  let center : RPoint := { x := (p0.x + p2.x) / 2, y := (p0.y + p2.y) / 2 }
  let rot0 := atan2R (p1.y - p0.y) (p1.x - p0.x)
  let rot1 := if rot0 < 0 then rot0 + 2 * Real.pi else rot0
  let orig := if almostZeroR rot1 then pts else pts.map (fun p => rotateP p (-rot1) center)
  let o0 := orig.getD 0 origin
  let o1 := orig.getD 1 origin
  let o3 := orig.getD 3 origin
  let dist1 := distP p0 p1
  let dist2 := distP p0 p3
  let wh := if |o0.x - o1.x| > |o0.x - o3.x| then (dist1, dist2) else (dist2, dist1)
  let q1 := quadrantR center o0
  let q2 := quadrantR center o1
  let rot2 := if q1 = 1 ∨ q1 = 4 then rot1 - Real.pi else rot1
  let rot3 := if rot2 < 0 then rot2 + 2 * Real.pi else rot2
  { points := pts, width := wh.1, height := wh.2, center := center, rotation := rot3,
    p1Quadrant := q1, p2Quadrant := q2,
    mirrorHorizontal := q1 = 1 ∨ q1 = 4, mirrorVertical := q1 = 3 ∨ q1 = 4 }

/-- The BoundingBox constructor: any point count other than exactly four
raises the generic decode failure (modelled as none). -/
def mkBoundingBoxR (pts : List RPoint) : Option BBoxR :=
  if pts.length = 4 then some (computeBBoxR pts) else none

end

end LibzmfGeom

namespace Libzmf

/-! ## Theorems.  First the generic lemmas about the embedding's monads,
the lifecycle automaton and the collector operations. -/

theorem rm_bind_apply (m : RM α) (f : α → RM β) (s : RState) :
    (m >>= f) s =
      match m s with
      | .rok a s' => f a s'
      | .rerr e s' => .rerr e s' := rfl

theorem mm_bind_apply (m : MM α) (f : α → MM β) (s : PState) :
    (m >>= f) s =
      match m s with
      | .mok a s' => f a s'
      | .merr e s' => .merr e s' := rfl

theorem rm_pure_apply (a : α) (s : RState) : (pure a : RM α) s = .rok a s := rfl

theorem mm_pure_apply (a : α) (s : PState) : (pure a : MM α) s = .mok a s := rfl

theorem traceRun_append_one (st : AState) (evs : List LEvent) (e : LEvent) :
    traceRun st (evs ++ [e]) = (traceRun st evs).bind fun st' => stepE st' e := by
  unfold traceRun
  rw [List.foldl_append]
  rfl

theorem count_append_one (l : List LEvent) (e e' : LEvent) :
    (l ++ [e]).count e' = l.count e' + (if e = e' then 1 else 0) := by
  by_cases h : e = e'
  · subst h
    simp [List.count_append]
  · rw [List.count_append]
    have : List.count e' [e] = 0 := by
      rw [List.count_eq_zero]
      simp [Ne.symm h]
    rw [this]
    simp [h]

/-- The automaton only reaches flag combinations where a page implies a
document and a layer implies a page. -/
theorem stepE_good (a b : AState) (e : LEvent) :
    stepE a e = some b → ((b.page = true → b.doc = true) ∧ (b.layer = true → b.page = true)) := by
  revert a b e
  decide

theorem foldl_stepE_none (rest : List LEvent) :
    (List.foldl (fun o e => o.bind fun st' => stepE st' e) none rest :
      Option AState) = none := by
  induction rest <;> simp_all

theorem traceRun_good_aux :
    ∀ (evs : List LEvent) (a st : AState),
      ((a.page = true → a.doc = true) ∧ (a.layer = true → a.page = true)) →
      traceRun a evs = some st →
      ((st.page = true → st.doc = true) ∧ (st.layer = true → st.page = true)) := by
  intro evs
  induction evs with
  | nil =>
    intro a st ha h
    simp [traceRun] at h
    simpa [← h] using ha
  | cons e rest ih =>
    intro a st ha h
    unfold traceRun at h
    simp only [List.foldl_cons, Option.some_bind] at h
    cases hs : stepE a e with
    | none =>
      rw [hs] at h
      rw [foldl_stepE_none] at h
      cases h
    | some a' =>
      rw [hs] at h
      exact ih a' st (stepE_good a a' e hs) h

theorem traceRun_good (evs : List LEvent) (st : AState)
    (h : traceRun startA evs = some st) :
    (st.page = true → st.doc = true) ∧ (st.layer = true → st.page = true) :=
  traceRun_good_aux evs startA st (by simp [startA]) h

/-- Projection of the full automaton onto the page-level automaton. -/
theorem stepE_pageStep (a b : AState) (e : LEvent) :
    stepE a e = some b → pageStep (a.doc, a.page) e = some (b.doc, b.page) := by
  revert a b e
  decide

theorem traceRun_pageRun (evs : List LEvent) :
    ∀ (a : AState) (st : AState), traceRun a evs = some st →
      pageRun (a.doc, a.page) evs = some (st.doc, st.page) := by
  induction evs with
  | nil =>
    intro a st h
    simp [traceRun] at h
    simp [pageRun, ← h]
  | cons e rest ih =>
    intro a st h
    unfold traceRun at h
    simp only [List.foldl_cons, Option.some_bind] at h
    cases hs : stepE a e with
    | none =>
      rw [hs] at h
      rw [foldl_stepE_none] at h
      cases h
    | some a' =>
      rw [hs] at h
      have := ih a' st h
      unfold pageRun
      simp only [List.foldl_cons, Option.some_bind]
      rw [stepE_pageStep a a' e hs]
      exact this

theorem pageRun_append_one (st : Bool × Bool) (evs : List LEvent) (e : LEvent) :
    pageRun st (evs ++ [e]) = (pageRun st evs).bind fun st' => pageStep st' e := by
  unfold pageRun
  rw [List.foldl_append]
  rfl

/-! ### MT combinators -/

theorem MT.pure {P : CollState → Prop} {Q : α → CollState → Prop} {E : CollState → Prop}
    (a : α) (h : ∀ c, P c → Q a c) : MT P (pure a) Q E := by
  intro s hP
  exact h s.coll hP

theorem MT.bind {P : CollState → Prop} {Q : α → CollState → Prop}
    {R : β → CollState → Prop} {E : CollState → Prop} {m : MM α} {f : α → MM β}
    (hm : MT P m Q E) (hf : ∀ a, MT (Q a) (f a) R E) : MT P (m >>= f) R E := by
  intro s hP
  rw [mm_bind_apply]
  have := hm s hP
  cases hms : m s with
  | mok a s' =>
    rw [hms] at this
    exact hf a s' this
  | merr e s' =>
    rw [hms] at this
    exact this

theorem MT.lift {P : CollState → Prop} (m : RM α) :
    MT P (Libzmf.liftR m) (fun _ => P) P := by
  intro s hP
  unfold liftR
  cases m s.rs <;> exact hP

theorem MT.throw {P : CollState → Prop} {Q : α → CollState → Prop} {E : CollState → Prop}
    (e : ZErr) (h : ∀ c, P c → E c) : MT P (mthrow e : MM α) Q E := by
  intro s hP
  exact h s.coll hP

theorem MT.ite {P : CollState → Prop} {Q : α → CollState → Prop} {E : CollState → Prop}
    (b : Prop) [Decidable b] {m1 m2 : MM α}
    (h1 : MT P m1 Q E) (h2 : MT P m2 Q E) : MT P (if b then m1 else m2) Q E := by
  split
  · exact h1
  · exact h2

theorem MT.weaken {P P' : CollState → Prop} {Q Q' : α → CollState → Prop}
    {E E' : CollState → Prop} {m : MM α} (hm : MT P m Q E)
    (hP : ∀ c, P' c → P c) (hQ : ∀ a c, Q a c → Q' a c) (hE : ∀ c, E c → E' c) :
    MT P' m Q' E' := by
  intro s hp
  have := hm s (hP _ hp)
  cases hms : m s with
  | mok a s' => rw [hms] at this; exact hQ a _ this
  | merr e s' => rw [hms] at this; exact hE _ this

/-! ### Collector-operation triples -/

theorem collInv_append {c : CollState} {d p l : Bool} (d' p' l' : Bool) (e : LEvent)
    (hInv : CollInv c) (hd : c.doc = d) (hp : c.page = p) (hl : c.layer = l)
    (hstep : stepE { doc := d, page := p, layer := l } e =
      some { doc := d', page := p', layer := l' }) :
    traceRun startA (c.events ++ [e]) = some { doc := d', page := p', layer := l' } := by
  rw [traceRun_append_one]
  unfold CollInv at hInv
  rw [hd, hp, hl] at hInv
  rw [hInv, Option.some_bind]
  exact hstep

theorem dCounts_append {c : CollState} {k1 k2 : Nat} (e : LEvent)
    (hk : dCounts c = (k1, k2)) :
    (List.count LEvent.startDoc (c.events ++ [e]),
     List.count LEvent.endDoc (c.events ++ [e])) =
      (k1 + (if e = LEvent.startDoc then 1 else 0),
       k2 + (if e = LEvent.endDoc then 1 else 0)) := by
  unfold dCounts at hk
  have h1 := congrArg Prod.fst hk
  have h2 := congrArg Prod.snd hk
  simp only at h1 h2
  simp only [count_append_one, h1, h2]

theorem mt_cStartDocument {k1 k2 : Nat} {E : CollState → Prop} :
    MT (InvAt false false false (k1, k2)) cStartDocument
      (fun _ => InvAt true false false (k1 + 1, k2)) E := by
  intro s hP
  obtain ⟨hInv, hd, hp, hl, hk⟩ := hP
  unfold cStartDocument
  rw [if_neg (by rw [hd]; exact Bool.false_ne_true)]
  refine ⟨?_, rfl, hp, hl, ?_⟩
  · dsimp only [CollInv]
    rw [hp, hl]
    exact collInv_append true false false LEvent.startDoc hInv hd hp hl rfl
  · dsimp only [dCounts]
    rw [dCounts_append LEvent.startDoc hk]
    simp

theorem mt_cStartPage {k : Nat × Nat} {E : CollState → Prop} :
    MT (InvAt true false false k) cStartPage
      (fun _ => InvAt true true false k) E := by
  intro s hP
  obtain ⟨hInv, hd, hp, hl, hk⟩ := hP
  obtain ⟨k1, k2⟩ := k
  unfold cStartPage
  rw [if_neg (by rw [hp]; exact Bool.false_ne_true)]
  have hcel : collEndLayer s.coll = s.coll := by
    unfold collEndLayer
    rw [if_pos (by rw [hl]; exact Bool.false_ne_true)]
  rw [hcel]
  refine ⟨?_, hd, rfl, hl, ?_⟩
  · dsimp only [CollInv]
    rw [hd, hl]
    exact collInv_append true true false LEvent.startPage hInv hd hp hl rfl
  · dsimp only [dCounts]
    rw [dCounts_append LEvent.startPage hk]
    simp

theorem mt_cStartLayer {k : Nat × Nat} {E : CollState → Prop} :
    MT (InvAt true true false k) cStartLayer
      (fun _ => InvAt true true true k) E := by
  intro s hP
  obtain ⟨hInv, hd, hp, hl, hk⟩ := hP
  obtain ⟨k1, k2⟩ := k
  unfold cStartLayer
  rw [if_neg (by rw [hl]; exact Bool.false_ne_true)]
  refine ⟨?_, hd, hp, rfl, ?_⟩
  · dsimp only [CollInv]
    rw [hd, hp]
    exact collInv_append true true true LEvent.startLayer hInv hd hp hl rfl
  · dsimp only [dCounts]
    rw [dCounts_append LEvent.startLayer hk]
    simp

theorem mt_cEndLayer {k : Nat × Nat} {E : CollState → Prop} :
    MT (InvAt true true true k) cEndLayer
      (fun _ => InvAt true true false k) E := by
  intro s hP
  obtain ⟨hInv, hd, hp, hl, hk⟩ := hP
  obtain ⟨k1, k2⟩ := k
  unfold cEndLayer collEndLayer
  rw [if_neg (by rw [hl]; intro hc; exact hc rfl)]
  refine ⟨?_, hd, hp, rfl, ?_⟩
  · dsimp only [CollInv]
    rw [hd, hp]
    exact collInv_append true true false LEvent.endLayer hInv hd hp hl rfl
  · dsimp only [dCounts]
    rw [dCounts_append LEvent.endLayer hk]
    simp

theorem mt_cEndPage {k : Nat × Nat} {E : CollState → Prop} :
    MT (InvAt true true false k) cEndPage
      (fun _ => InvAt true false false k) E := by
  intro s hP
  obtain ⟨hInv, hd, hp, hl, hk⟩ := hP
  obtain ⟨k1, k2⟩ := k
  unfold cEndPage collEndPage
  rw [if_neg (by rw [hp]; intro hc; exact hc rfl)]
  refine ⟨?_, hd, rfl, hl, ?_⟩
  · dsimp only [CollInv]
    rw [hd, hl]
    exact collInv_append true false false LEvent.endPage hInv hd hp hl rfl
  · dsimp only [dCounts]
    rw [dCounts_append LEvent.endPage hk]
    simp

theorem mt_cEndDocument {k1 k2 : Nat} {E : CollState → Prop} :
    MT (InvAt true false false (k1, k2)) cEndDocument
      (fun _ => InvAt false false false (k1, k2 + 1)) E := by
  intro s hP
  obtain ⟨hInv, hd, hp, hl, hk⟩ := hP
  unfold cEndDocument collEndDocument
  rw [if_neg (by rw [hd]; intro hc; exact hc rfl)]
  have hcep : collEndPage s.coll = s.coll := by
    unfold collEndPage
    rw [if_pos (by rw [hp]; exact Bool.false_ne_true)]
  rw [hcep]
  refine ⟨?_, rfl, hp, hl, ?_⟩
  · dsimp only [CollInv]
    rw [hp, hl]
    exact collInv_append false false false LEvent.endDoc hInv hd hp hl rfl
  · dsimp only [dCounts]
    rw [dCounts_append LEvent.endDoc hk]
    simp

/-! ### Loop triples -/

theorem inv_to_einv {d p l : Bool} {k : Nat × Nat} (c : CollState)
    (h : InvAt d p l k c) : EInv k c := ⟨h.1, h.2.2.2.2⟩

theorem MT.liftE {P E : CollState → Prop} (m : RM α) (h : ∀ c, P c → E c) :
    MT P (Libzmf.liftR m) (fun _ => P) E :=
  MT.weaken (MT.lift m) (fun _ hc => hc) (fun _ _ hc => hc) h

theorem layerLoop_zero (oc : ZOracles) : layerLoop oc 0 = mthrow .fuelOut := rfl

theorem layerLoop_succ (oc : ZOracles) (n : Nat) :
    layerLoop oc (n + 1) = (do
      let hdr ← liftR readObjectHeaderSet
      if hdr.otype = ObjectType.LAYER_END then do
        liftR (seekTo hdr.next)
        cEndLayer
      else do
        liftR (handleObject oc n)
        layerLoop oc n) := rfl

theorem mt_layerLoop (oc : ZOracles) (k : Nat × Nat) (n : Nat) :
    MT (InvAt true true true k) (layerLoop oc n)
      (fun _ => InvAt true true false k) (EInv k) := by
  induction n with
  | zero =>
    rw [layerLoop_zero]
    exact MT.throw _ inv_to_einv
  | succ n ih =>
    rw [layerLoop_succ]
    refine MT.bind (MT.liftE _ inv_to_einv) fun hdr => ?_
    refine MT.ite _ ?_ ?_
    · exact MT.bind (MT.liftE _ inv_to_einv) fun _ => mt_cEndLayer
    · exact MT.bind (MT.liftE _ inv_to_einv) fun _ => ih

theorem mt_readLayer (oc : ZOracles) (fuel : Nat) (hdr : ObjectHeader) (k : Nat × Nat) :
    MT (InvAt true true false k) (readLayer oc fuel hdr)
      (fun _ => InvAt true true false k) (EInv k) := by
  unfold readLayer
  refine MT.ite _ ?_ ?_
  · exact MT.throw _ inv_to_einv
  · exact MT.bind mt_cStartLayer fun _ =>
      MT.bind (MT.liftE _ inv_to_einv) fun _ => mt_layerLoop oc k fuel

theorem pageLoop_zero (oc : ZOracles) : pageLoop oc 0 = mthrow .fuelOut := rfl

theorem pageLoop_succ (oc : ZOracles) (n : Nat) :
    pageLoop oc (n + 1) = (do
      let hdr ← liftR readObjectHeader
      if hdr.otype = ObjectType.GUIDELINES then do
        liftR (seekTo hdr.next)
        pageLoop oc n
      else if hdr.otype = ObjectType.PAGE_END then do
        cEndPage
        let e ← liftR misEnd
        if e then pure () else liftR (seekTo hdr.next)
      else if hdr.otype = ObjectType.LAYER_START then do
        readLayer oc n hdr
        pageLoop oc n
      else mthrow .generic) := rfl

theorem mt_pageLoop (oc : ZOracles) (k : Nat × Nat) (n : Nat) :
    MT (InvAt true true false k) (pageLoop oc n)
      (fun _ => InvAt true false false k) (EInv k) := by
  induction n with
  | zero =>
    rw [pageLoop_zero]
    exact MT.throw _ inv_to_einv
  | succ n ih =>
    rw [pageLoop_succ]
    refine MT.bind (MT.liftE _ inv_to_einv) fun hdr => ?_
    refine MT.ite _ ?_ (MT.ite _ ?_ (MT.ite _ ?_ ?_))
    · exact MT.bind (MT.liftE _ inv_to_einv) fun _ => ih
    · refine MT.bind mt_cEndPage fun _ => ?_
      refine MT.bind (MT.liftE _ inv_to_einv) fun e => ?_
      refine MT.ite _ ?_ ?_
      · exact MT.pure _ fun c hc => hc
      · exact MT.liftE _ inv_to_einv
    · exact MT.bind (mt_readLayer oc n hdr k) fun _ => ih
    · exact MT.throw _ inv_to_einv

theorem mt_readPageTail (oc : ZOracles) (fuel : Nat) (hdr : ObjectHeader) (k : Nat × Nat) :
    MT (InvAt true false false k) (readPageTail oc fuel hdr)
      (fun _ => InvAt true false false k) (EInv k) := by
  unfold readPageTail
  refine MT.bind mt_cStartPage fun _ => ?_
  refine MT.bind (MT.liftE _ inv_to_einv) fun _ => ?_
  exact mt_pageLoop oc k fuel

theorem mt_readPage (oc : ZOracles) (fuel : Nat) (k : Nat × Nat) :
    MT (InvAt true false false k) (readPage oc fuel)
      (fun _ => InvAt true false false k) (EInv k) := by
  unfold readPage
  refine MT.bind (MT.liftE _ inv_to_einv) fun hdr => ?_
  refine MT.ite _ ?_ ?_
  · exact MT.throw _ inv_to_einv
  · refine MT.bind (MT.liftE _ inv_to_einv) fun pn => ?_
    refine MT.ite _ ?_ ?_
    · exact MT.bind (MT.liftE _ inv_to_einv) fun hdr' => mt_readPageTail oc fuel hdr' k
    · exact mt_readPageTail oc fuel hdr k

theorem pagesLoop_zero (oc : ZOracles) : pagesLoop oc 0 = mthrow .fuelOut := rfl

theorem pagesLoop_succ (oc : ZOracles) (n : Nat) :
    pagesLoop oc (n + 1) = (do
      let e ← liftR misEnd
      if e then pure ()
      else do
        readPage oc n
        pagesLoop oc n) := rfl

theorem mt_pagesLoop (oc : ZOracles) (k : Nat × Nat) (n : Nat) :
    MT (InvAt true false false k) (pagesLoop oc n)
      (fun _ => InvAt true false false k) (EInv k) := by
  induction n with
  | zero =>
    rw [pagesLoop_zero]
    exact MT.throw _ inv_to_einv
  | succ n ih =>
    rw [pagesLoop_succ]
    refine MT.bind (MT.liftE _ inv_to_einv) fun e => ?_
    refine MT.ite _ ?_ ?_
    · exact MT.pure _ fun c hc => hc
    · exact MT.bind (mt_readPage oc n k) fun _ => ih

/-! ### The parse-level triple and the lifecycle theorems -/

theorem mt_zmf4ParseTail (oc : ZOracles) (fuel : Nat) (j1 j2 : Nat) :
    MT (InvAt true false false (j1, j2)) (zmf4ParseTail oc fuel)
      (fun b c => b = true ∧ InvAt false false false (j1, j2 + 1) c)
      (EInv (j1, j2)) := by
  unfold zmf4ParseTail
  refine MT.bind (MT.liftE _ inv_to_einv) fun _ => ?_
  refine MT.bind (mt_pagesLoop oc (j1, j2) fuel) fun _ => ?_
  refine MT.bind mt_cEndDocument fun _ => ?_
  exact MT.pure _ fun c hc => ⟨rfl, hc⟩

/-- The bounded error condition of a whole parse run: the trace still
drives the automaton and at most one extra startDocument was emitted. -/
def EBnd (k1 : Nat) (c : CollState) : Prop :=
  CollInv c ∧ List.count LEvent.startDoc c.events ≤ k1 + 1

theorem inv_to_ebnd_base {k1 k2 : Nat} (c : CollState)
    (h : InvAt false false false (k1, k2) c) : EBnd k1 c := by
  refine ⟨h.1, ?_⟩
  have hc := congrArg Prod.fst h.2.2.2.2
  simp only [dCounts] at hc
  omega

theorem inv_to_ebnd_started {p l : Bool} {k1 k2 : Nat} (c : CollState)
    (h : InvAt true p l (k1 + 1, k2) c) : EBnd k1 c := by
  refine ⟨h.1, ?_⟩
  have hc := congrArg Prod.fst h.2.2.2.2
  simp only [dCounts] at hc
  omega

theorem einv_to_ebnd {k1 k2 : Nat} (c : CollState)
    (h : EInv (k1 + 1, k2) c) : EBnd k1 c := by
  refine ⟨h.1, ?_⟩
  have hc := congrArg Prod.fst h.2
  simp only [dCounts] at hc
  omega

theorem mt_zmf4Parse (oc : ZOracles) (fuel : Nat) (k1 k2 : Nat) :
    MT (InvAt false false false (k1, k2)) (zmf4Parse oc fuel)
      (fun b c => (b = true → InvAt false false false (k1 + 1, k2 + 1) c) ∧
        (b = false → InvAt false false false (k1, k2) c))
      (EBnd k1) := by
  unfold zmf4Parse
  refine MT.bind (MT.liftE _ inv_to_ebnd_base) fun len => ?_
  refine MT.bind (MT.liftE _ inv_to_ebnd_base) fun _ => ?_
  refine MT.bind (MT.liftE _ inv_to_ebnd_base) fun p => ?_
  obtain ⟨ok1, zh⟩ := p
  refine MT.ite _ ?_ ?_
  · exact MT.pure _ fun c hc => ⟨fun h => (nomatch h), fun _ => hc⟩
  · refine MT.bind mt_cStartDocument fun _ => ?_
    have htail :
        MT (InvAt true false false (k1 + 1, k2)) (zmf4ParseTail oc fuel)
          (fun b c => (b = true → InvAt false false false (k1 + 1, k2 + 1) c) ∧
            (b = false → InvAt false false false (k1, k2) c))
          (EBnd k1) := by
      refine MT.weaken (mt_zmf4ParseTail oc fuel (k1 + 1) k2)
        (fun c hc => hc) (fun b c hc => ?_) einv_to_ebnd
      exact ⟨fun _ => hc.2, fun hf => nomatch hc.1.symm.trans hf⟩
    refine MT.ite _ ?_ ?_
    · refine MT.bind (MT.liftE _ inv_to_ebnd_started) fun _ => ?_
      refine MT.bind (MT.liftE _ inv_to_ebnd_started) fun _ => ?_
      exact htail
    · refine MT.bind (MT.liftE _ inv_to_ebnd_started) fun _ => ?_
      exact htail

theorem invAt_init : InvAt false false false (0, 0) initColl := ⟨rfl, rfl, rfl, rfl, rfl⟩

theorem bool_not_true {b : Bool} (h : ¬b = true) : b = false := by
  cases b
  · rfl
  · exact absurd rfl h

/-- The collector destructor restores page-level balance on any state the
automaton accepts, and emits no startDocument. -/
theorem finalize_pages (c : CollState) (hInv : CollInv c) :
    pageRun (false, false) (finalizeColl c).events = some (false, false) ∧
      List.count LEvent.startDoc (finalizeColl c).events =
        List.count LEvent.startDoc c.events := by
  have hpr : pageRun (false, false) c.events = some (c.doc, c.page) :=
    traceRun_pageRun c.events startA
      { doc := c.doc, page := c.page, layer := c.layer } hInv
  have hg : (c.page = true → c.doc = true) ∧ (c.layer = true → c.page = true) :=
    traceRun_good c.events _ hInv
  unfold finalizeColl
  by_cases hd : c.doc = true
  · rw [if_pos hd]
    unfold collEndDocument
    rw [if_neg (fun hc => hc hd)]
    unfold collEndPage
    by_cases hp : c.page = true
    · rw [if_neg (fun hc => hc hp)]
      constructor
      · rw [pageRun_append_one, pageRun_append_one, hpr, hd, hp]
        rfl
      · rw [count_append_one, count_append_one]
        simp
    · rw [if_pos (fun hc => hp hc)]
      constructor
      · rw [pageRun_append_one, hpr, hd, bool_not_true hp]
        rfl
      · rw [count_append_one]
        simp
  · rw [if_neg hd]
    have hdf := bool_not_true hd
    have hpf : c.page = false := by
      cases hcp : c.page
      · rfl
      · rw [hg.1 hcp] at hdf
        cases hdf
    rw [hpr, hdf, hpf]
    exact ⟨rfl, rfl⟩

/-- An accepted input always yields a well-formed lifecycle trace. -/
theorem zmfDocumentParse_true_wf (oc : ZOracles) (fuel : Nat) (d : ByteData)
    (tr : List LEvent) (h : zmfDocumentParse oc fuel d = (true, tr)) :
    WellFormedTrace tr := by
  unfold zmfDocumentParse at h
  cases hdt : detectType d <;> simp only [hdt] at h
  · cases hz : zmf4Parse oc fuel { rs := initRState d, coll := initColl }
    case mok b sf =>
      have h' : (b, (finalizeColl sf.coll).events) = (true, tr) := by rw [hz] at h; exact h
      have hq := mt_zmf4Parse oc fuel 0 0 { rs := initRState d, coll := initColl } invAt_init
      rw [hz] at hq
      have hb : b = true := congrArg Prod.fst h'
      obtain ⟨hInv, hdd, hpp, hll, hkk⟩ := hq.1 hb
      have hfin : finalizeColl sf.coll = sf.coll := by
        unfold finalizeColl
        rw [hdd]
        rfl
      rw [hfin] at h'
      have htr : sf.coll.events = tr := congrArg Prod.snd h'
      have hcnt := congrArg Prod.fst hkk
      have hcnt2 := congrArg Prod.snd hkk
      simp only [dCounts] at hcnt hcnt2
      refine ⟨?_, ?_, ?_⟩
      · rw [← htr]
        unfold CollInv at hInv
        rw [hdd, hpp, hll] at hInv
        exact hInv
      · rw [← htr]
        exact hcnt
      · rw [← htr]
        exact hcnt2
    case merr e sf =>
      have h' : ((false : Bool), (finalizeColl sf.coll).events) = (true, tr) := by
        rw [hz] at h
        exact h
      exact nomatch congrArg Prod.fst h'
  · unfold bmiParseDoc at h
    cases hb : bmiReadImage oc fuel (detectRState d)
    case rok p sf =>
      have h' : (if p.1.data.isEmpty = true then ((false : Bool), ([] : List LEvent))
          else (true, [LEvent.startDoc, LEvent.startPage, LEvent.startLayer,
            LEvent.endLayer, LEvent.endPage, LEvent.endDoc])) = (true, tr) := by
        rw [hb] at h
        exact h
      by_cases he : p.1.data.isEmpty = true
      · rw [if_pos he] at h'
        exact nomatch congrArg Prod.fst h'
      · rw [if_neg he] at h'
        have htr : [LEvent.startDoc, LEvent.startPage, LEvent.startLayer,
            LEvent.endLayer, LEvent.endPage, LEvent.endDoc] = tr := congrArg Prod.snd h'
        rw [← htr]
        exact ⟨rfl, rfl, rfl⟩
    case rerr e sf =>
      have h' : ((false : Bool), ([] : List LEvent)) = (true, tr) := by
        rw [hb] at h
        exact h
      exact nomatch congrArg Prod.fst h'
  · have htr : [LEvent.startDoc, LEvent.endDoc] = tr := congrArg Prod.snd h
    rw [← htr]
    exact ⟨rfl, rfl, rfl⟩
  · exact nomatch congrArg Prod.fst h

/-- A rejected input always yields a page-balanced trace: any open page is
closed before the final endDocument, and at most one document is opened. -/
theorem zmfDocumentParse_false_balanced (oc : ZOracles) (fuel : Nat) (d : ByteData)
    (tr : List LEvent) (h : zmfDocumentParse oc fuel d = (false, tr)) :
    PagesBalanced tr := by
  unfold zmfDocumentParse at h
  cases hdt : detectType d <;> simp only [hdt] at h
  · cases hz : zmf4Parse oc fuel { rs := initRState d, coll := initColl }
    case mok b sf =>
      have h' : (b, (finalizeColl sf.coll).events) = (false, tr) := by rw [hz] at h; exact h
      have hq := mt_zmf4Parse oc fuel 0 0 { rs := initRState d, coll := initColl } invAt_init
      rw [hz] at hq
      have hb : b = false := congrArg Prod.fst h'
      obtain ⟨hInv, hdd, hpp, hll, hkk⟩ := hq.2 hb
      have htr : (finalizeColl sf.coll).events = tr := congrArg Prod.snd h'
      have hfp := finalize_pages sf.coll hInv
      rw [htr] at hfp
      have hcnt := congrArg Prod.fst hkk
      simp only [dCounts] at hcnt
      refine ⟨hfp.1, ?_⟩
      rw [hfp.2]
      omega
    case merr e sf =>
      have h' : ((false : Bool), (finalizeColl sf.coll).events) = (false, tr) := by
        rw [hz] at h
        exact h
      have hq := mt_zmf4Parse oc fuel 0 0 { rs := initRState d, coll := initColl } invAt_init
      rw [hz] at hq
      obtain ⟨hInv, hcnt⟩ := hq
      have htr : (finalizeColl sf.coll).events = tr := congrArg Prod.snd h'
      have hfp := finalize_pages sf.coll hInv
      rw [htr] at hfp
      exact ⟨hfp.1, by rw [hfp.2]; omega⟩
  · unfold bmiParseDoc at h
    cases hb : bmiReadImage oc fuel (detectRState d)
    case rok p sf =>
      have h' : (if p.1.data.isEmpty = true then ((false : Bool), ([] : List LEvent))
          else (true, [LEvent.startDoc, LEvent.startPage, LEvent.startLayer,
            LEvent.endLayer, LEvent.endPage, LEvent.endDoc])) = (false, tr) := by
        rw [hb] at h
        exact h
      by_cases he : p.1.data.isEmpty = true
      · rw [if_pos he] at h'
        have htr : ([] : List LEvent) = tr := congrArg Prod.snd h'
        rw [← htr]
        exact ⟨rfl, by decide⟩
      · rw [if_neg he] at h'
        exact nomatch congrArg Prod.fst h'
    case rerr e sf =>
      have h' : ((false : Bool), ([] : List LEvent)) = (false, tr) := by
        rw [hb] at h
        exact h
      have htr : ([] : List LEvent) = tr := congrArg Prod.snd h'
      rw [← htr]
      exact ⟨rfl, by decide⟩
  · exact nomatch congrArg Prod.fst h
  · have htr : ([] : List LEvent) = tr := congrArg Prod.snd h
    rw [← htr]
    exact ⟨rfl, by decide⟩

/-! ### Evaluation lemmas for the reader primitives -/

theorem run_step {m : RM α} {f : α → RM β} {s s' : RState} {a : α} {r : RRes β}
    (h1 : m s = .rok a s') (h2 : f a s' = r) : (m >>= f) s = r := by
  rw [rm_bind_apply, h1]
  exact h2

theorem bind_rok {m : RM α} {f : α → RM β} {s s' : RState} {b : β}
    (h : (m >>= f) s = .rok b s') : ∃ a s1, m s = .rok a s1 ∧ f a s1 = .rok b s' := by
  rw [rm_bind_apply] at h
  revert h
  cases hm : m s with
  | rok a s1 => exact fun h => ⟨a, s1, rfl, h⟩
  | rerr e s1 => exact fun h => nomatch h

theorem readU8_ok (s : RState) (h : s.pos < s.data.size) :
    readU8 s = .rok (byteAt s.data s.pos) { s with pos := s.pos + 1 } := by
  unfold readU8
  rw [if_neg (by omega)]

theorem readU32_ok (s : RState) (h : s.pos + 4 ≤ s.data.size) :
    readU32 s = .rok (u32At s.data s.pos) { s with pos := s.pos + 4 } := by
  unfold readU32
  rw [if_neg (by omega), if_pos h]

theorem skipB_ok (n : Nat) (s : RState) (h0 : s.pos < s.data.size)
    (h : s.pos + n ≤ s.data.size) :
    skipB n s = .rok () { s with pos := s.pos + n } := by
  unfold skipB
  rw [if_neg (by omega), if_pos h]

theorem seekTo_ok (p : Nat) (s : RState) (h : p ≤ s.data.size) :
    seekTo p s = .rok () { s with pos := p } := by
  unfold seekTo
  rw [if_pos h]

/-- The four header validations of ZMF4Parser::readObjectHeader: a zero
size, a size beyond the remaining input, a ref-list start at or past the
size, or a ref count that cannot fit raise the generic decode failure,
with the stream left right after the 20 header bytes read. -/
theorem readObjectHeader_invalid (s : RState) (hsp : s.pos + 20 ≤ s.data.size)
    (hviol : u32At s.data s.pos = 0 ∨
      u32At s.data s.pos > s.inputLength - s.pos ∨
      u32At s.data (s.pos + 16) ≥ u32At s.data s.pos ∨
      u32At s.data (s.pos + 12) > (u32At s.data s.pos - u32At s.data (s.pos + 16)) / 8) :
    readObjectHeader s = .rerr .generic { s with pos := s.pos + 20 } := by
  unfold readObjectHeader
  refine run_step rfl ?_
  refine run_step (readU32_ok _ ?_) ?_
  · omega
  refine run_step (readU8_ok _ ?_) ?_
  · dsimp only
    omega
  refine run_step (skipB_ok 7 _ ?_ ?_) ?_
  · dsimp only
    omega
  · dsimp only
    omega
  refine run_step (readU32_ok _ ?_) ?_
  · dsimp only
    omega
  refine run_step (readU32_ok _ ?_) ?_
  · dsimp only
    omega
  refine run_step rfl ?_
  dsimp only
  split
  · rfl
  · next hn => exact absurd hviol hn

/-! ### Claims C1 and C2: header validation and the lifecycle protocol -/

/-- C1: for every object header whose size is 0, or exceeds the remaining
stream length, or whose ref-list start is at or past the size, or whose
ref count cannot fit, readObjectHeader raises the generic decode failure;
every rejected parse leaves a page-balanced trace (at most one document,
every open page closed).  The claim's further words — that every opened
layer is also closed, making the trace well formed — are refuted by
C1_open_layer_counterexample: the collector destructor ends the page and
the document but never the layer. -/
theorem C1_invalid_header_generic_failure (s : RState) (hsp : s.pos + 20 ≤ s.data.size)
    (hviol : u32At s.data s.pos = 0 ∨
      u32At s.data s.pos > s.inputLength - s.pos ∨
      u32At s.data (s.pos + 16) ≥ u32At s.data s.pos ∨
      u32At s.data (s.pos + 12) > (u32At s.data s.pos - u32At s.data (s.pos + 16)) / 8) :
    readObjectHeader s = .rerr .generic { s with pos := s.pos + 20 } ∧
    (∀ oc fuel d tr, zmfDocumentParse oc fuel d = (false, tr) → PagesBalanced tr) :=
  ⟨readObjectHeader_invalid s hsp hviol,
   fun oc fuel d tr h => zmfDocumentParse_false_balanced oc fuel d tr h⟩

/-- The C1 theorem applied to the concrete rejected drawing file, whose
object at offset 276 carries a zero size field. -/
theorem C1_invalid_header_generic_failure_witness :
    readObjectHeader (mkRS zmfBadObjectData 276 304 defaultObjectHeader) =
      .rerr .generic { mkRS zmfBadObjectData 276 304 defaultObjectHeader with pos := 296 } ∧
    (∀ oc fuel d tr, zmfDocumentParse oc fuel d = (false, tr) → PagesBalanced tr) :=
  C1_invalid_header_generic_failure (mkRS zmfBadObjectData 276 304 defaultObjectHeader)
    (by decide) (Or.inl rfl)

/-- The failing drawing file is rejected with the layer still open: the
emitted trace has an unmatched startLayer, so the sink does not observe a
well-formed document as the claim words it. -/
theorem C1_open_layer_counterexample :
    zmfDocumentParse noOracles 20 zmfBadObjectData =
      (false, [LEvent.startDoc, LEvent.startPage, LEvent.startLayer,
               LEvent.endPage, LEvent.endDoc]) ∧
    ¬ WellFormedTrace [LEvent.startDoc, LEvent.startPage, LEvent.startLayer,
               LEvent.endPage, LEvent.endDoc] ∧
    List.count LEvent.startLayer [LEvent.startDoc, LEvent.startPage, LEvent.startLayer,
               LEvent.endPage, LEvent.endDoc] = 1 ∧
    List.count LEvent.endLayer [LEvent.startDoc, LEvent.startPage, LEvent.startLayer,
               LEvent.endPage, LEvent.endDoc] = 0 :=
  ⟨rfl, ⟨(by intro hw; exact nomatch hw.1), ⟨by decide, by decide⟩⟩⟩

/-- C2: every accepted drawing file yields a trace the lifecycle automaton
accepts back to its start state with exactly one startDocument and one
endDocument (so every startPage/startLayer is matched and nothing
interleaves); and the collector's start and end operations are no-ops
when their flag already has the target value, with startPage implicitly
ending a running layer. -/
theorem C2_lifecycle_counts (oc : ZOracles) (fuel : Nat) (d : ByteData) (tr : List LEvent)
    (h : zmfDocumentParse oc fuel d = (true, tr)) :
    WellFormedTrace tr ∧
    (∀ s : PState, s.coll.doc = true → cStartDocument s = .mok () s) ∧
    (∀ s : PState, s.coll.page = true → cStartPage s = .mok () s) ∧
    (∀ s : PState, s.coll.layer = true → cStartLayer s = .mok () s) ∧
    (∀ s : PState, s.coll.layer = false → cEndLayer s = .mok () s) ∧
    (∀ s : PState, s.coll.page = false → cEndPage s = .mok () s) ∧
    (∀ s : PState, s.coll.doc = false → cEndDocument s = .mok () s) ∧
    (∀ s : PState, s.coll.page = false → s.coll.layer = true →
      match cStartPage s with
      | .mok _ s' => s'.coll.events = s.coll.events ++ [LEvent.endLayer] ++ [LEvent.startPage] ∧
          s'.coll.layer = false ∧ s'.coll.page = true
      | .merr _ _ => False) := by
  refine ⟨zmfDocumentParse_true_wf oc fuel d tr h, ?_, ?_, ?_, ?_, ?_, ?_, ?_⟩
  · intro s hs
    unfold cStartDocument
    rw [if_pos hs]
  · intro s hs
    unfold cStartPage
    rw [if_pos hs]
  · intro s hs
    unfold cStartLayer
    rw [if_pos hs]
  · intro s hs
    unfold cEndLayer collEndLayer
    rw [if_pos (by rw [hs]; exact Bool.false_ne_true)]
  · intro s hs
    unfold cEndPage collEndPage
    rw [if_pos (by rw [hs]; exact Bool.false_ne_true)]
  · intro s hs
    unfold cEndDocument collEndDocument
    rw [if_pos (by rw [hs]; exact Bool.false_ne_true)]
  · intro s hp hl
    unfold cStartPage
    rw [if_neg (by rw [hp]; exact Bool.false_ne_true)]
    unfold collEndLayer
    rw [if_neg (fun hc => hc hl)]
    exact ⟨rfl, rfl, rfl⟩

/-- The C2 theorem applied to the concrete accepted drawing file. -/
theorem C2_lifecycle_counts_witness :
    WellFormedTrace [LEvent.startDoc, LEvent.startPage, LEvent.startLayer,
      LEvent.endLayer, LEvent.endPage, LEvent.endDoc] ∧
    (∀ s : PState, s.coll.doc = true → cStartDocument s = .mok () s) ∧
    (∀ s : PState, s.coll.page = true → cStartPage s = .mok () s) ∧
    (∀ s : PState, s.coll.layer = true → cStartLayer s = .mok () s) ∧
    (∀ s : PState, s.coll.layer = false → cEndLayer s = .mok () s) ∧
    (∀ s : PState, s.coll.page = false → cEndPage s = .mok () s) ∧
    (∀ s : PState, s.coll.doc = false → cEndDocument s = .mok () s) ∧
    (∀ s : PState, s.coll.page = false → s.coll.layer = true →
      match cStartPage s with
      | .mok _ s' => s'.coll.events = s.coll.events ++ [LEvent.endLayer] ++ [LEvent.startPage] ∧
          s'.coll.layer = false ∧ s'.coll.page = true
      | .merr _ _ => False) :=
  C2_lifecycle_counts noOracles 20 zmfAcceptedData
    [LEvent.startDoc, LEvent.startPage, LEvent.startLayer,
     LEvent.endLayer, LEvent.endPage, LEvent.endDoc] rfl

/-! ### Claim C3: bitmap dimension reconciliation -/

theorem reconcileValue_none_iff (v1 v2 v3 : Nat) :
    reconcileValue v1 v2 v3 = none ↔ v1 ≠ v2 ∧ v1 ≠ v3 ∧ v2 ≠ v3 := by
  unfold reconcileValue
  split_ifs with h1 h2 h3 <;> simp_all

theorem reconcileValue_majority (v1 v2 v3 w1 w2 w3 : Nat)
    (h : reconcileValue v1 v2 v3 = some (w1, w2, w3)) :
    w1 = w2 ∧ w2 = w3 ∧ (w1 = v1 ∧ (v2 = v1 ∨ v3 = v1) ∨ w1 = v2 ∧ v3 = v2) := by
  unfold reconcileValue at h
  split_ifs at h with h1 h4 h2 h3
  all_goals simp only [Option.some.injEq, Prod.mk.injEq, reduceCtorEq] at h
  all_goals obtain ⟨e1, e2, e3⟩ := h
  all_goals omega

theorem bmiAfterHeaders_discard (oc : ZOracles) (fuel : Nat) (hdr : BMIHdrV)
    (bh th : CBHdr) (s : RState) (h : reconcileDimensions hdr bh th = none) :
    bmiAfterHeaders oc fuel hdr (some bh) (some th) s = .rok (emptyImage, hdr.size) s := by
  unfold bmiAfterHeaders
  dsimp only
  rw [h]
  rfl

/-- C3: three-way dimension reconciliation fails exactly when the three
values are pairwise different; when it succeeds all three returned values
are the majority value; when width or height reconciliation fails, the
image-reading tail returns the empty image. -/
theorem C3_reconcile_majority (v1 v2 v3 : Nat) (oc : ZOracles) (fuel : Nat)
    (hdr : BMIHdrV) (bh th : CBHdr) (s : RState) :
    (reconcileValue v1 v2 v3 = none ↔ v1 ≠ v2 ∧ v1 ≠ v3 ∧ v2 ≠ v3) ∧
    (∀ w1 w2 w3, reconcileValue v1 v2 v3 = some (w1, w2, w3) →
      w1 = w2 ∧ w2 = w3 ∧ (w1 = v1 ∧ (v2 = v1 ∨ v3 = v1) ∨ w1 = v2 ∧ v3 = v2)) ∧
    (reconcileDimensions hdr bh th = none →
      bmiAfterHeaders oc fuel hdr (some bh) (some th) s = .rok (emptyImage, hdr.size) s) :=
  ⟨reconcileValue_none_iff v1 v2 v3,
   fun w1 w2 w3 h => reconcileValue_majority v1 v2 v3 w1 w2 w3 h,
   fun h => bmiAfterHeaders_discard oc fuel hdr bh th s h⟩

/-! ### Claim C9: palette size and index extraction -/

theorem readColorPaletteLoop_length (k : Nat) :
    ∀ s r s', readColorPaletteLoop k s = .rok r s' → r.length = k := by
  induction k with
  | zero =>
    intro s r s' h
    cases h
    rfl
  | succ n ih =>
    intro s r s' h
    obtain ⟨b, s1, _, h⟩ := bind_rok h
    obtain ⟨g, s2, _, h⟩ := bind_rok h
    obtain ⟨c, s3, _, h⟩ := bind_rok h
    obtain ⟨u, s4, _, h⟩ := bind_rok h
    obtain ⟨rest, s5, hrest, h⟩ := bind_rok h
    cases h
    simp [List.length_cons, ih _ _ _ hrest]

theorem extractIndex_lt (depth b : Nat) (hd : depth = 1 ∨ depth = 4 ∨ depth = 8) :
    extractIndex depth b < 2 ^ depth := by
  have hle : extractIndex depth b ≤ bmMask depth >>> bmShift depth := by
    unfold extractIndex
    rw [Nat.shiftRight_eq_div_pow, Nat.shiftRight_eq_div_pow]
    exact Nat.div_le_div_right Nat.and_le_right
  rcases hd with h | h | h <;> subst h <;> exact lt_of_le_of_lt hle (by decide)

/-- C9: for the palette color depths 1, 4 and 8, every index the pixel
loop extracts from a data byte is below 2 to the depth, and the palette
read by readColorPalette has exactly that many entries, so the palette
lookup is in bounds for arbitrary input data. -/
theorem C9_palette_index_safe (depth b : Nat) (hd : depth = 1 ∨ depth = 4 ∨ depth = 8) :
    extractIndex depth b < 2 ^ depth ∧
    (∀ s r s', readColorPalette depth s = .rok r s' → r.length = 2 ^ depth) ∧
    (∀ palette : List ColorV, palette.length = 2 ^ depth →
      extractIndex depth b < palette.length) :=
  ⟨extractIndex_lt depth b hd,
   fun s r s' h => readColorPaletteLoop_length (2 ^ depth) s r s' h,
   fun _ hlen => hlen ▸ extractIndex_lt depth b hd⟩

/-- The C9 theorem applied at depth 4 and the all-ones data byte. -/
theorem C9_palette_index_safe_witness :
    extractIndex 4 255 < 2 ^ 4 ∧
    (∀ s r s', readColorPalette 4 s = .rok r s' → r.length = 2 ^ 4) ∧
    (∀ palette : List ColorV, palette.length = 2 ^ 4 →
      extractIndex 4 255 < palette.length) :=
  C9_palette_index_safe 4 255 (Or.inr (Or.inl rfl))

/-! ### Claim C10: the frame property of getLength -/

theorem C10_getLength_frame {σ : Type} (ops : SOps σ) (fuel : Nat) (s : σ)
    (hss : ∀ s2 q s3, ops.seekSet s2 q = some s3 → ops.tell s3 = q) :
    (ops.isEnd s = true → getLengthA ops fuel s = none) ∧
    (∀ s2, endState ops fuel s = some s2 → ops.tell s2 < ops.tell s →
      getLengthA ops fuel s = none) ∧
    (∀ s2, endState ops fuel s = some s2 → ops.seekSet s2 (ops.tell s) = none →
      getLengthA ops fuel s = none) ∧
    (∀ len s3, getLengthA ops fuel s = some (len, s3) →
      ops.tell s3 = ops.tell s ∧
      ∃ s2, endState ops fuel s = some s2 ∧ ops.tell s ≤ ops.tell s2 ∧
        len = ops.tell s2 - ops.tell s) := by
  refine ⟨fun he => ?_, fun s2 h2 hlt => ?_, fun s2 h2 hns => ?_, fun len s3 hsome => ?_⟩
  · unfold getLengthA
    rw [if_pos he]
  · unfold getLengthA
    by_cases he : ops.isEnd s = true
    · rw [if_pos he]
    · rw [if_neg he]
      dsimp only
      rw [h2]
      dsimp only
      rw [if_pos hlt]
  · unfold getLengthA
    by_cases he : ops.isEnd s = true
    · rw [if_pos he]
    · rw [if_neg he]
      dsimp only
      rw [h2]
      dsimp only
      by_cases hlt : ops.tell s2 < ops.tell s
      · rw [if_pos hlt]
      · rw [if_neg hlt, hns]
  · unfold getLengthA at hsome
    by_cases he : ops.isEnd s = true
    · rw [if_pos he] at hsome
      exact nomatch hsome
    · rw [if_neg he] at hsome
      dsimp only at hsome
      cases h2 : endState ops fuel s with
      | none =>
        rw [h2] at hsome
        exact nomatch hsome
      | some s2 =>
        rw [h2] at hsome
        dsimp only at hsome
        by_cases hlt : ops.tell s2 < ops.tell s
        · rw [if_pos hlt] at hsome
          exact nomatch hsome
        · rw [if_neg hlt] at hsome
          cases hset : ops.seekSet s2 (ops.tell s) with
          | none =>
            rw [hset] at hsome
            exact nomatch hsome
          | some s4 =>
            rw [hset] at hsome
            simp only [Option.some.injEq, Prod.mk.injEq] at hsome
            obtain ⟨hlen, hs3⟩ := hsome
            refine ⟨?_, s2, rfl, Nat.not_lt.mp hlt, hlen.symm⟩
            rw [← hs3]
            exact hss s2 (ops.tell s) s4 hset

theorem natSOps_seekSet_tell (s2 : Nat × Nat) (q : Nat) (s3 : Nat × Nat)
    (h : natSOps.seekSet s2 q = some s3) : natSOps.tell s3 = q := by
  unfold natSOps at h
  dsimp only at h
  by_cases hq : q ≤ s2.2
  · rw [if_pos hq] at h
    cases h
    rfl
  · rw [if_neg hq] at h
    exact nomatch h

/-- The C10 theorem applied to the list-backed stream at position 2 of 5. -/
theorem C10_getLength_frame_witness :
    natSOps.tell ((2, 5) : Nat × Nat) = natSOps.tell ((2, 5) : Nat × Nat) ∧
    ∃ s2, endState natSOps 1 (2, 5) = some s2 ∧
      natSOps.tell ((2, 5) : Nat × Nat) ≤ natSOps.tell s2 ∧
      3 = natSOps.tell s2 - natSOps.tell ((2, 5) : Nat × Nat) :=
  (C10_getLength_frame natSOps 1 (2, 5) natSOps_seekSet_tell).2.2.2 3 (2, 5) rfl

/-! ### Claim C4: curve section consumption -/

theorem cpAccesses_lt (ts : List CurveType) : ∀ i n, ∀ j ∈ cpAccesses ts i n, j < n := by
  induction ts with
  | nil =>
    intro i n j hj
    exact absurd hj (List.not_mem_nil j)
  | cons t rest ih =>
    intro i n j hj
    cases t with
    | LINE =>
      simp only [cpAccesses] at hj
      split at hj
      · exact ih i n j hj
      · next hni =>
          rcases List.mem_cons.mp hj with h | h
          · omega
          · exact ih (i + 1) n j h
    | BEZIER_CURVE =>
      simp only [cpAccesses] at hj
      split at hj
      · exact ih i n j hj
      · next hni =>
          rcases List.mem_cons.mp hj with h | h
          · omega
          · rcases List.mem_cons.mp h with h2 | h2
            · omega
            · rcases List.mem_cons.mp h2 with h3 | h3
              · omega
              · exact ih (i + 3) n j h3

theorem consumedPoints_replicate (k : Nat) :
    consumedPoints (List.replicate k CurveType.LINE) = k := by
  have haux : ∀ m acc, (List.replicate m CurveType.LINE).foldl
      (fun acc t => match t with | CurveType.LINE => acc + 1 | CurveType.BEZIER_CURVE => acc + 3)
      acc = acc + m := by
    intro m
    induction m with
    | zero =>
      intro acc
      simp
    | succ n ih =>
      intro acc
      rw [List.replicate_succ, List.foldl_cons, ih]
      dsimp only
      omega
  unfold consumedPoints
  rw [haux k 0]
  omega

/-- C4: the section-consumption bound holds for the rectangle curve that
the parser builds itself, and the collector's path builder guards every
point access below the point count; the bound does not hold for every
parsed curve (see C4_unbounded_sections_counterexample), because
readCurveSectionTypes reads to the end marker with no bound against the
point count. -/
theorem C4_section_consumption (ts : List CurveType) (i n : Nat) (pts : List PointV) :
    (∀ j ∈ cpAccesses ts i n, j < n) ∧
    consumedPoints (rectCurve pts).sectionTypes ≤ (rectCurve pts).points.length - 1 :=
  ⟨cpAccesses_lt ts i n, by
    show consumedPoints (List.replicate (pts.length - 1) CurveType.LINE) ≤ pts.length - 1
    rw [consumedPoints_replicate]⟩

/-- A 52-byte curve body with one two-point component whose section-type
stream holds three LINE records: the parsed curve consumes 3 points from
a 2-point list, violating the claimed invariant. -/
theorem C4_unbounded_sections_counterexample :
    (match readCurveComponents 8 readPointM (mkRS curve3LineData 0 52 defaultObjectHeader) with
     | .rok cs _ => cs.map fun c => (consumedPoints c.sectionTypes, c.points.length)
     | .rerr _ _ => []) = [(3, 2)] ∧ ¬ (3 ≤ 2 - 1) :=
  ⟨rfl, by decide⟩

/-! ### Claim C5: the reference list -/

theorem readU32Vec_eval (k : Nat) : ∀ s : RState, s.pos + 4 * k ≤ s.data.size →
    readU32Vec k s = .rok ((List.range k).map fun i => u32At s.data (s.pos + 4 * i))
      { s with pos := s.pos + 4 * k } := by
  induction k with
  | zero =>
    intro s h
    rfl
  | succ n ih =>
    intro s h
    have he : readU32Vec (n + 1) = (do
        let v ← readU32
        let rest ← readU32Vec n
        pure (v :: rest)) := rfl
    rw [he]
    refine run_step (readU32_ok s (by omega)) ?_
    refine run_step (ih _ ?_) ?_
    · dsimp only
      omega
    rw [rm_pure_apply]
    have hl : (List.range (n + 1)).map (fun i => u32At s.data (s.pos + 4 * i)) =
        u32At s.data s.pos :: (List.range n).map (fun i => u32At s.data (s.pos + 4 + 4 * i)) := by
      have htail : (List.range n).map ((fun i => u32At s.data (s.pos + 4 * i)) ∘ Nat.succ) =
          (List.range n).map (fun i => u32At s.data (s.pos + 4 + 4 * i)) :=
        List.map_congr_left fun a ha => by
          show u32At s.data (s.pos + 4 * (a + 1)) = u32At s.data (s.pos + 4 + 4 * a)
          congr 1
          omega
      rw [List.range_succ_eq_map, List.map_cons, List.map_map, htail]
      norm_num
    rw [hl, (show s.pos + 4 * (n + 1) = s.pos + 4 + 4 * n by omega)]

/-- C5: the source reads the reference list at nextObjectOffset - 8 * k
(ids first, then tags, NO_ID entries dropped) whatever the header's
ref-list-start offset holds; the claimed alternative position for a
positive ref-list-start offset is refuted by
C5_reflist_offset_counterexample. -/
theorem C5_reflist (s : RState) (k : Nat)
    (hk : s.curHeader.refObjCount = k) (hk0 : 0 < k)
    (hcnt : (k : Int) ≤ (s.curHeader.next : Int) - ((s.pos / 8 : Nat) : Int))
    (h8 : 8 * k ≤ s.curHeader.next) (hn : s.curHeader.next ≤ s.data.size) :
    readObjectRefs s =
      .rok (specRefListAt s.data (s.curHeader.next - 8 * k) k)
        { s with pos := s.curHeader.next } := by
  unfold readObjectRefs
  refine run_step rfl ?_
  dsimp only
  rw [hk]
  rw [if_neg (show ¬((s.curHeader.next : Int) - ((s.pos / 8 : Nat) : Int) < 0) by omega)]
  rw [if_neg (show ¬((s.curHeader.next : Int) - ((s.pos / 8 : Nat) : Int) < (k : Int)) by omega)]
  rw [if_pos hk0]
  refine run_step (seekTo_ok _ _ (by omega)) ?_
  refine run_step (readU32Vec_eval k _ ?_) ?_
  · dsimp only
    omega
  refine run_step (readU32Vec_eval k _ ?_) ?_
  · dsimp only
    omega
  rw [rm_pure_apply]
  dsimp only
  rw [List.zip_map', List.map_map]
  unfold specRefListAt
  rw [(show s.curHeader.next - 8 * k + 4 * k + 4 * k = s.curHeader.next by omega)]
  rfl

/-- The C5 theorem applied to the concrete stream whose header records a
positive ref-list-start offset of 20: the single reference is still read
at nextObjectOffset - 8. -/
theorem C5_reflist_witness :
    readObjectRefs (mkRS refListData 0 40 refListHeader) =
      .rok (specRefListAt refListData 32 1)
        { mkRS refListData 0 40 refListHeader with pos := 40 } :=
  C5_reflist (mkRS refListData 0 40 refListHeader) 1 rfl (by decide) (by decide)
    (by decide) (by decide)

/-- The reference pair the source reads (at nextObjectOffset - 8,
position 32) differs from the pair at the recorded ref-list-start
offset 20 that the claim describes. -/
theorem C5_reflist_offset_counterexample :
    (match readObjectRefs (mkRS refListData 0 40 refListHeader) with
     | .rok refs _ => refs
     | .rerr _ _ => []) = [ObjectRef.mk 7 3] ∧
    specRefListAt refListData 20 1 = [ObjectRef.mk 99 5] ∧
    ObjectRef.mk 7 3 ≠ ObjectRef.mk 99 5 :=
  ⟨rfl, rfl, by decide⟩

/-! ### Claim C7: resource objects with a missing id -/

theorem readFill_skips_missing_id (s : RState) (h : s.curHeader.id = none) :
    readFill s = .rok () s := by
  unfold readFill
  refine run_step rfl ?_
  dsimp only
  rw [h]
  rfl

/-- C7: readFill drops a fill object whose header has no id without
touching the state, as the claim says for resource objects; readText has
no such guard and runs into the id-table assignment, where get() on the
empty optional id is undefined behaviour (the ub marker), instead of
dropping the text object. -/
theorem C7_text_missing_id_ub :
    (∀ s : RState, s.curHeader.id = none → readFill s = .rok () s) ∧
    (match readText (mkRS textNoIdData 0 40 textNoIdHeader) with
     | .rerr e _ => e = ZErr.ub
     | .rok _ _ => False) :=
  ⟨fun s h => readFill_skips_missing_id s h, rfl⟩

/-! ### Claim C8: the dash pattern bound -/

theorem dashWalk_bound (bit : Nat → Bool) (l : List Nat) :
    ∀ c pv pat, 1 ≤ c →
      1 ≤ (l.foldl (dashStep bit) (c, pv, pat)).1 ∧
      (l.foldl (dashStep bit) (c, pv, pat)).2.2.sum + (l.foldl (dashStep bit) (c, pv, pat)).1 ≤
        pat.sum + c + l.length := by
  induction l with
  | nil =>
    intro c pv pat hc
    exact ⟨hc, by simp⟩
  | cons i rest ih =>
    intro c pv pat hc
    rw [List.foldl_cons]
    by_cases hb : bit i ≠ (c, pv, pat).2.1
    · have hstep : dashStep bit (c, pv, pat) i = (1, bit i, pat ++ [c]) := by
        unfold dashStep
        rw [if_pos hb]
      rw [hstep]
      have h2 := ih 1 (bit i) (pat ++ [c]) (Nat.le_refl 1)
      refine ⟨h2.1, le_trans h2.2 ?_⟩
      simp only [List.sum_append, List.sum_cons, List.sum_nil, List.length_cons]
      omega
    · have hstep : dashStep bit (c, pv, pat) i = (c + 1, bit i, pat) := by
        unfold dashStep
        rw [if_neg hb]
      rw [hstep]
      have h2 := ih (c + 1) (bit i) pat (by omega)
      refine ⟨h2.1, le_trans h2.2 ?_⟩
      simp only [List.length_cons]
      omega

theorem decodeDash_eq (bytes : List Nat) (dashLength : Nat) :
    decodeDash bytes dashLength = ([], 0) ∨
    ∃ pat : List Nat, pat.sum ≤ 23 ∧
      decodeDash bytes dashLength =
        (pat, if ((dashLength / 1024 : Nat) : Int) - (pat.sum : Int) < 1 then 1
              else ((dashLength / 1024 : Nat) : Int) - (pat.sum : Int)) := by
  unfold decodeDash
  dsimp only
  have hb := dashWalk_bound (fun i => (bytes.getD (i / 8) 0) >>> (i % 8) &&& 1 = 1)
    (List.range' 1 23) 1 true [] (Nat.le_refl 1)
  simp only [List.length_range', List.sum_nil] at hb
  split_ifs with hall hd
  · exact Or.inl rfl
  · refine Or.inr ⟨(List.foldl (dashStep fun i => decide (bytes.getD (i / 8) 0 >>> (i % 8) &&& 1 = 1))
        (1, true, ([] : List Nat)) (List.range' 1 23)).2.2, ?_, ?_⟩
    · omega
    · rw [if_pos hd]
  · refine Or.inr ⟨(List.foldl (dashStep fun i => decide (bytes.getD (i / 8) 0 >>> (i % 8) &&& 1 = 1))
        (1, true, ([] : List Nat)) (List.range' 1 23)).2.2, ?_, ?_⟩
    · omega
    · rw [if_neg hd]

/-- C8: the dash distance is the floored difference the spec describes and
the pattern sum is at most 23, so the decoded quantities satisfy
sum + distance <= max (dashLength / 1024) (sum + 1); the claim's bound
ceil(dashLength / 1024) + 1 fails when the pattern sum exceeds the
quotient (C8_floor_counterexample). -/
theorem C8_dash_distance_bound (bytes : List Nat) (dashLength : Nat) :
    (decodeDash bytes dashLength = ([], 0) ∨
      ∃ pat : List Nat, pat.sum ≤ 23 ∧
        decodeDash bytes dashLength =
          (pat, if ((dashLength / 1024 : Nat) : Int) - (pat.sum : Int) < 1 then 1
                else ((dashLength / 1024 : Nat) : Int) - (pat.sum : Int))) ∧
    ((decodeDash bytes dashLength).1.sum : Int) + (decodeDash bytes dashLength).2 ≤
      max (((dashLength / 1024 : Nat) : Int)) (((decodeDash bytes dashLength).1.sum : Int) + 1) := by
  refine ⟨decodeDash_eq bytes dashLength, ?_⟩
  rcases decodeDash_eq bytes dashLength with h | ⟨pat, hsum, h⟩
  · rw [h]
    simp only [List.sum_nil, Nat.cast_zero, add_zero]
    exact le_trans (by norm_num) (le_max_right _ _)
  · rw [h]
    dsimp only
    split_ifs with hd
    · exact le_max_right _ _
    · exact le_trans (le_of_eq (by ring)) (le_max_left _ _)

/-- All-zero dash bytes with dash length 0: the decoded pattern sums to 1
with distance floored to 1, and 1 + 1 exceeds ceil(0 / 1024) + 1. -/
theorem C8_floor_counterexample :
    decodeDash [0, 0, 0, 0, 0, 0] 0 = ([1], 1) ∧
    ¬ ((([1] : List Nat).sum : Int) + 1 ≤ (((0 + 1023) / 1024 : Nat) : Int) + 1) :=
  ⟨rfl, by decide⟩

end Libzmf

/-! ### Claim C6: the BoundingBox size guard -/

namespace LibzmfGeom

/-- C6: the BoundingBox constructor raises the generic decode failure
exactly on point counts other than four — in particular on fewer than
four points — and succeeds on any list of four points; four identical
points are accepted (see C6_identical_points_counterexample), producing a
degenerate box, rather than failing as the claim says. -/
theorem C6_size_guard (pts : List RPoint) :
    (pts.length ≠ 4 → mkBoundingBoxR pts = none) ∧
    (pts.length = 4 → mkBoundingBoxR pts = some (computeBBoxR pts)) := by
  constructor
  · intro h
    unfold mkBoundingBoxR
    rw [if_neg h]
  · intro h
    unfold mkBoundingBoxR
    rw [if_pos h]

/-- Four identical points pass the BoundingBox constructor — only the
point count is validated — and yield a degenerate box of width zero. -/
theorem C6_identical_points_counterexample :
    mkBoundingBoxR [origin, origin, origin, origin] =
      some (computeBBoxR [origin, origin, origin, origin]) ∧
    (computeBBoxR [origin, origin, origin, origin]).width = 0 := by
  constructor
  · unfold mkBoundingBoxR
    rw [if_pos (by simp)]
  · unfold computeBBoxR
    dsimp only
    split_ifs <;> simp [distP, origin]

end LibzmfGeom
